import Mathlib

/-!
# go-testdb: the stub registry and the fake connection

A shallow embedding of `src/testdb.go` and `src/conn.go`.

Conventions of the embedding.

* The package-level variable `d` is an explicit `testDriver` value that every
  operation receives and (when it writes to it) returns.
* A connection method receives its receiver `c` and the global `d` separately,
  as the source does: `Query`, `Exec` and `Prepare` read the overrides of the
  receiver (`c.queryFunc`, `c.execFunc`) and the registry of the global
  connection (`d.conn.queries`).  `Conn()` and `Open` hand out `d.conn`, so the
  usual receiver is `d.conn`.
* `map[string]*queries` is a function from keys to optional queues.  The
  package only ever stores a freshly allocated queue under a key, so two keys
  never share a queue object and a nil pointer is never stored.
* A Go call either returns or panics; `Outcome` records which.  A deferred
  `q.pos++` runs in both cases, as in Go.
* Library code that is not part of the repository (SHA-1, the rune lowering
  table of `strings.ToLower`, `strings.TrimSpace`, `encoding/csv`,
  `time.Parse`) is a field of `Lib`; every definition takes the library as its
  first argument.
* A closure of a prepared statement holds pointers (the receiver `c`, the
  queue `q`).  It is a function of the state it is invoked in, and finds the
  receiver and the queue there: `d.conn` and the queue under the key.  This is
  what the Go closure sees as long as no `Reset` comes between `Prepare` and
  the invocation.
* Query texts are valid Unicode strings; override callbacks are pure.
-/

set_option linter.dupNamespace false

namespace Testdb

/-! ## Values -/

/-- The outcome of a Go call: a normal return, or a panic with its message. -/
inductive Outcome (α : Type) where
  | ret (v : α)
  | panicked (msg : String)
deriving DecidableEq, Repr

/-- A Go `error` value, identified by its message (`errors.New msg`). -/
abbrev Error := String

/-- A `time.Time` value, identified by its textual instant. -/
structure Time where
  instant : String
deriving DecidableEq, Repr

/-- A `driver.Value`: nil, a string, a timestamp, or a value of another
dynamic type (identified by a tag). -/
inductive Value where
  | null
  | str (s : String)
  | time (t : Time)
  | other (tag : Nat)
deriving DecidableEq, Repr

/-- The `rows` struct, with the fields `RowsFromSlice` fills in. -/
structure rows where
  closed : Bool
  columns : List String
  rows : List (List Value)
  pos : Nat
deriving DecidableEq, Repr

/-- Modelled from the spec: `rows.clone` (its file is not among the sources).
"A clone operation produces a fresh cursor over the same underlying row data
with pos reset to 0 and closed reset to false." -/
def rows.clone (r : Testdb.rows) : Testdb.rows :=
  { closed := false, columns := r.columns, rows := r.rows, pos := 0 }

/-- A non-nil `driver.Rows` interface value: a `*rows` of this package, or
another implementation (identified by a tag). -/
inductive Rows where
  | own (r : rows)
  | foreign (tag : Nat)
deriving DecidableEq, Repr

/-- Modelled from the spec: the `Result` struct (its file is not among the
sources), a mutation result "reporting rows-affected and
last-inserted-identifier". -/
structure Result where
  lastInsertId : Int
  affectedRows : Int
deriving DecidableEq, Repr

/-- A non-nil `driver.Result` interface value: a `*Result` of this package, or
another implementation (identified by a tag). -/
inductive DriverResult where
  | own (r : Result)
  | foreign (tag : Nat)
deriving DecidableEq, Repr

/-- A `driver.Conn` handed out by `Open`: the global connection, or another one. -/
inductive ConnRef where
  | global
  | foreign (tag : Nat)
deriving DecidableEq, Repr

/-! ## The data model of `testdb.go` and `conn.go` -/

/-- The `query` struct: one stub entry.  A nil interface or nil pointer is `none`. -/
structure query where
  rows : Option Rows
  result : Option Result
  err : Option Error
deriving DecidableEq, Repr

/-- The `queries` struct: a queue of entries and its position. -/
structure queries where
  queries : List query
  pos : Nat
deriving DecidableEq, Repr

/-- What `Query` returns: the pair `(driver.Rows, error)`. -/
abbrev QueryRet := Option Rows × Option Error

/-- What `Exec` returns: the pair `(driver.Result, error)`. -/
abbrev ExecRet := Option DriverResult × Option Error

/-- The `conn` struct. -/
structure conn where
  queries : String → Option queries
  queryFunc : Option (String → List Value → QueryRet)
  execFunc : Option (String → List Value → ExecRet)

/-- The `testDriver` struct; the global `d` is a value of this type. -/
structure testDriver where
  openFunc : Option (String → Option ConnRef × Option Error)
  conn : conn
  enableTimeParsing : Bool
  timeParsingFormat : String

/-- The library functions the package calls. -/
structure Lib where
  /-- The rune mapping `unicode.ToLower` that `strings.ToLower` applies. -/
  toLower : Char → Char
  /-- The digest `sha1.New` / `h.Sum(nil)` as a function of the written text. -/
  sha1 : String → String
  /-- Text trimming, `strings.TrimSpace`. -/
  trimSpace : String → String
  /-- The records `csvReader.Read` yields before its first error or end of input. -/
  csvRecords : String → List (List String)
  /-- Timestamp parsing, `time.Parse format value`; `none` when it returns an error. -/
  timeParse : String → String → Option Time

/-- The constant `time.RFC3339`. -/
def RFC3339 : String := "2006-01-02T15:04:05Z07:00"

/-- The function `newConn`. -/
def newConn : conn :=
  { queries := fun _ => none, queryFunc := none, execFunc := none }

/-- The function `newDriver`. -/
def newDriver : testDriver :=
  { openFunc := none, conn := newConn, enableTimeParsing := false,
    timeParsingFormat := RFC3339 }

/-- The function `EnableTimeParsing`. -/
def EnableTimeParsing (flag : Bool) (d : testDriver) : testDriver :=
  { d with enableTimeParsing := flag }

/-- The function `EnableTimeParsingWithFormat`. -/
def EnableTimeParsingWithFormat (format : String) (d : testDriver) : testDriver :=
  { d with enableTimeParsing := true, timeParsingFormat := format }

/-- The method `testDriver.Open` (the global connection is never nil here). -/
def testDriver.Open (d : testDriver) (dsn : String) : Option ConnRef × Option Error :=
  match d.openFunc with
  | some f => f dsn
  | none => (some ConnRef.global, none)

/-! ## Query keys -/

/-- The characters the regular expression `\s` matches in Go's syntax:
tab, line feed, form feed, carriage return and space. -/
def isWhitespace (c : Char) : Bool :=
  c.toNat = 9 || c.toNat = 10 || c.toNat = 12 || c.toNat = 13 || c.toNat = 32

/-- The call `whitespaceRegexp.ReplaceAllString(query, "")`. -/
def stripWhitespace (query : String) : String :=
  ⟨query.data.filter (fun c => !isWhitespace c)⟩

/-- The call `strings.ToLower`: the rune mapping applied to every rune. -/
def stringsToLower (L : Lib) (s : String) : String :=
  ⟨s.data.map L.toLower⟩

/-- The function `getQueryHash`: strip whitespace, lowercase, digest. -/
def getQueryHash (L : Lib) (query : String) : String :=
  L.sha1 (stringsToLower L (stripWhitespace query))

/-! ## Registry updates -/

/-- Store queue `q` under `key` in the registry of the global connection. -/
def setQueue (d : testDriver) (key : String) (q : queries) : testDriver :=
  { d with conn := { d.conn with
      queries := fun k => if k = key then some q else d.conn.queries k } }

/-- The statement `q.pos++` on a queue. -/
def queries.advance (q : Testdb.queries) : Testdb.queries :=
  { q with pos := q.pos + 1 }

/-! ## Override installation and reset -/

/-- The function `SetQueryWithArgsFunc` (a nil argument is `none`). -/
def SetQueryWithArgsFunc (f : Option (String → List Value → QueryRet))
    (d : testDriver) : testDriver :=
  { d with conn := { d.conn with queryFunc := f } }

/-- The function `SetQueryFunc`: wraps `f` in a function that drops the arguments. -/
def SetQueryFunc (f : String → QueryRet) (d : testDriver) : testDriver :=
  SetQueryWithArgsFunc (some (fun query _ => f query)) d

/-- The function `SetExecWithArgsFunc` (a nil argument is `none`). -/
def SetExecWithArgsFunc (f : Option (String → List Value → ExecRet))
    (d : testDriver) : testDriver :=
  { d with conn := { d.conn with execFunc := f } }

/-- The function `SetExecFunc`: wraps `f` in a function that drops the arguments. -/
def SetExecFunc (f : String → ExecRet) (d : testDriver) : testDriver :=
  SetExecWithArgsFunc (some (fun query _ => f query)) d

/-- The function `SetOpenFunc`. -/
def SetOpenFunc (f : Option (String → Option ConnRef × Option Error))
    (d : testDriver) : testDriver :=
  { d with openFunc := f }

/-- The function `Reset`: a new connection, no open override. -/
def Reset (d : testDriver) : testDriver :=
  { d with conn := newConn, openFunc := none }

/-! ## Registration -/

/-- An argument of the variadic `r ...interface{}` of `StubQuery` and
`StubExec`, by dynamic type: a `driver.Rows`, a `*Result` (possibly a nil
pointer), a non-nil `error`, or anything else (the nil interface included). -/
inductive StubArg where
  | rows (r : Rows)
  | result (r : Option Result)
  | err (e : Error)
  | other (tag : Nat)
deriving DecidableEq, Repr

/-- The type switch of `StubQuery`: the entry `qr` built for one argument, or
`none` where the switch reaches `panic`. -/
def StubQuery.entry : StubArg → Option query
  | StubArg.rows r => some { rows := some r, result := none, err := none }
  | StubArg.err e => some { rows := none, result := none, err := some e }
  | _ => none

/-- The type switch of `StubExec`: the entry `qr` built for one argument, or
`none` where the switch reaches `panic`. -/
def StubExec.entry : StubArg → Option query
  | StubArg.result r => some { rows := none, result := r, err := none }
  | StubArg.err e => some { rows := none, result := none, err := some e }
  | _ => none

/-- The first statement of `StubQuery` and `StubExec`: store an empty queue
under `hash` when there is none. -/
def ensureQueue (d : testDriver) (hash : String) : testDriver :=
  match d.conn.queries hash with
  | none => setQueue d hash { queries := [], pos := 0 }
  | some _ => d

/-- The loop `for _, rs := range r` of `StubQuery` and `StubExec`, over the
type switch `entry`: it appends entry after entry and panics at the first
argument the switch rejects, keeping what it appended before. -/
def stubLoop (entry : StubArg → Option query) (hash : String) :
    List StubArg → testDriver → Outcome Unit × testDriver
  | [], d => (Outcome.ret (), d)
  | rs :: rest, d =>
    match entry rs with
    | none => (Outcome.panicked "invalid value for stub result", d)
    | some qr =>
      match d.conn.queries hash with
      | none => (Outcome.panicked "nil pointer dereference", d)
      | some q =>
        stubLoop entry hash rest (setQueue d hash { q with queries := q.queries ++ [qr] })

/-- The function `StubQuery`. -/
def StubQuery (L : Lib) (q : String) (r : List StubArg) (d : testDriver) :
    Outcome Unit × testDriver :=
  let hash := getQueryHash L q
  stubLoop StubQuery.entry hash r (ensureQueue d hash)

/-- The function `StubQueryError`. -/
def StubQueryError (L : Lib) (q : String) (err : Error) (d : testDriver) :
    Outcome Unit × testDriver :=
  StubQuery L q [StubArg.err err] d

/-- The function `StubExec`. -/
def StubExec (L : Lib) (q : String) (r : List StubArg) (d : testDriver) :
    Outcome Unit × testDriver :=
  let hash := getQueryHash L q
  stubLoop StubExec.entry hash r (ensureQueue d hash)

/-- The function `StubExecError`. -/
def StubExecError (L : Lib) (q : String) (err : Error) (d : testDriver) :
    Outcome Unit × testDriver :=
  StubExec L q [StubArg.err err] d

/-! ## The connection -/

/-- The method `conn.Query` on receiver `c` with global `d`.  The deferred
`q.pos++` is applied to the state that is returned, also when indexing
`q.queries[q.pos]` panics. -/
def conn.Query (L : Lib) (c : conn) (d : testDriver) (query : String)
    (args : List Value) : Outcome QueryRet × testDriver :=
  match c.queryFunc with
  | some f => (Outcome.ret (f query args), d)
  | none =>
    let hash := getQueryHash L query
    match d.conn.queries hash with
    | some q =>
      if q.pos = q.queries.length then
        (Outcome.ret (none, some ("Exhausted stubs for query: " ++ query)), d)
      else
        match q.queries[q.pos]? with
        | some e => (Outcome.ret (e.rows, e.err), setQueue d hash q.advance)
        | none => (Outcome.panicked "index out of range", setQueue d hash q.advance)
    | none => (Outcome.ret (none, some ("Query not stubbed: " ++ query)), d)

/-- The method `conn.Exec` on receiver `c` with global `d`.  The deferred
`q.pos++` is registered before the entry is inspected, so it also runs when
control falls through to the final `return`. -/
def conn.Exec (L : Lib) (c : conn) (d : testDriver) (query : String)
    (args : List Value) : Outcome ExecRet × testDriver :=
  match c.execFunc with
  | some f => (Outcome.ret (f query args), d)
  | none =>
    let hash := getQueryHash L query
    match d.conn.queries hash with
    | some q =>
      if q.pos = q.queries.length then
        (Outcome.ret (none, some ("Exhausted stubs for query: " ++ query)), d)
      else
        match q.queries[q.pos]? with
        | none => (Outcome.panicked "index out of range", setQueue d hash q.advance)
        | some e =>
          match e.result with
          | some r => (Outcome.ret (some (DriverResult.own r), none), setQueue d hash q.advance)
          | none =>
            match e.err with
            | some err => (Outcome.ret (none, some err), setQueue d hash q.advance)
            | none =>
              (Outcome.ret (none, some ("Exec call not stubbed: " ++ query)),
                setQueue d hash q.advance)
    | none => (Outcome.ret (none, some ("Exec call not stubbed: " ++ query)), d)

/-- The method `conn.Close`. -/
def conn.Close (_c : conn) : Option Error := none

/-! ## Prepared statements -/

/-- The `stmt` struct, with the two fields `Prepare` fills in.  A closure is a
function of its arguments and of the global state at the time it is invoked. -/
structure stmt where
  queryFunc : Option (List Value → testDriver → Outcome QueryRet × testDriver)
  execFunc : Option (List Value → testDriver → Outcome ExecRet × testDriver)

/-- The body of the registry-backed query closure of `Prepare`, on the queue
`q` the closure has captured: the entry at `q.pos` (a `*rows` cloned), and the
deferred `q.pos++`, which also runs when `q.queries[q.pos]` panics. -/
def Prepare.queryBody (q : queries) : Outcome QueryRet × queries :=
  match q.queries[q.pos]? with
  | none => (Outcome.panicked "index out of range", q.advance)
  | some e =>
    match e.rows with
    | some (Rows.own r) => (Outcome.ret (some (Rows.own r.clone), none), q.advance)
    | some other => (Outcome.ret (some other, none), q.advance)
    | none => (Outcome.ret (none, e.err), q.advance)

/-- The body of the registry-backed exec closure of `Prepare`, on the queue `q`
the closure has captured. -/
def Prepare.execBody (q : queries) : Outcome ExecRet × queries :=
  match q.queries[q.pos]? with
  | none => (Outcome.panicked "index out of range", q.advance)
  | some e =>
    match e.result with
    | some r => (Outcome.ret (some (DriverResult.own r), none), q.advance)
    | none => (Outcome.ret (none, e.err), q.advance)

/-- Run a closure body on the queue registered under `hash`.  The closure
holds a pointer to the queue object that was registered under `hash` when the
statement was prepared; it is the registered queue until the next `Reset`, and
the embedding follows it only that long (afterwards the outcome is a panic
that stands for "no longer tracked"). -/
def onQueue {α : Type} (hash : String) (body : queries → Outcome α × queries)
    (d : testDriver) : Outcome α × testDriver :=
  match d.conn.queries hash with
  | some q => ((body q).1, setQueue d hash (body q).2)
  | none => (Outcome.panicked "queue no longer registered", d)

/-- The override-backed query closure of `Prepare`,
`func(args) { return c.queryFunc(query, args) }`.  The closure holds the
receiver pointer `c` and reads `c.queryFunc` when it is invoked, not when the
statement is prepared.  The embedding follows the receiver as the global
connection (the only connection the package hands out): the closure reads the
override of the state it is invoked in, which is the receiver's until the next
`Reset`.  Calling a nil function value panics. -/
def Prepare.queryOverride (query : String) :
    List Value → testDriver → Outcome QueryRet × testDriver :=
  fun args d =>
    match d.conn.queryFunc with
    | some f => (Outcome.ret (f query args), d)
    | none => (Outcome.panicked "invalid memory address or nil pointer dereference", d)

/-- The override-backed exec closure of `Prepare`,
`func(args) { return c.execFunc(query, args) }`; it reads `c.execFunc` when it
is invoked, in the same way as `Prepare.queryOverride`. -/
def Prepare.execOverride (query : String) :
    List Value → testDriver → Outcome ExecRet × testDriver :=
  fun args d =>
    match d.conn.execFunc with
    | some f => (Outcome.ret (f query args), d)
    | none => (Outcome.panicked "invalid memory address or nil pointer dereference", d)

/-- The registry-backed query closure of `Prepare`. -/
def Prepare.queryRegistry (hash : String) :
    List Value → testDriver → Outcome QueryRet × testDriver :=
  fun _ d => onQueue hash Prepare.queryBody d

/-- The registry-backed exec closure of `Prepare`. -/
def Prepare.execRegistry (hash : String) :
    List Value → testDriver → Outcome ExecRet × testDriver :=
  fun _ d => onQueue hash Prepare.execBody d

/-- Lines 23 to 33 of `Prepare`: the statement after the two override checks
`c.queryFunc != nil` and `c.execFunc != nil`. -/
def Prepare.overrides (c : conn) (query : String) : stmt :=
  { queryFunc := if c.queryFunc.isSome then some (Prepare.queryOverride query) else none,
    execFunc := if c.execFunc.isSome then some (Prepare.execOverride query) else none }

/-- Lines 40 to 54 of `Prepare`: fill the query capability from the registry.
The entry `q.queries[q.pos]` is only read when `s.queryFunc` is nil. -/
def Prepare.fillQuery (hash : String) (q : queries) (s : stmt) : Outcome stmt :=
  match s.queryFunc with
  | some _ => Outcome.ret s
  | none =>
    match q.queries[q.pos]? with
    | none => Outcome.panicked "index out of range"
    | some e =>
      match e.rows with
      | some _ => Outcome.ret { s with queryFunc := some (Prepare.queryRegistry hash) }
      | none => Outcome.ret s

/-- Lines 56 to 67 of `Prepare`: fill the exec capability from the registry.
The entry `q.queries[q.pos]` is only read when `s.execFunc` is nil. -/
def Prepare.fillExec (hash : String) (q : queries) (s : stmt) : Outcome stmt :=
  match s.execFunc with
  | some _ => Outcome.ret s
  | none =>
    match q.queries[q.pos]? with
    | none => Outcome.panicked "index out of range"
    | some e =>
      match e.result with
      | some _ => Outcome.ret { s with execFunc := some (Prepare.execRegistry hash) }
      | none => Outcome.ret s

/-- Lines 70 to 74 of `Prepare`: the final test
`!(s.queryFunc == nil || s.execFunc == nil)` and the two returns. -/
def Prepare.finish (s : stmt) (query : String) : Option stmt × Option Error :=
  if !(s.queryFunc.isNone || s.execFunc.isNone) then
    (some { queryFunc := none, execFunc := none }, some ("Query not stubbed: " ++ query))
  else
    (some s, none)

/-- The method `conn.Prepare` on receiver `c` with global `d`.  It returns the
pair `(driver.Stmt, error)` and leaves the state as it is. -/
def conn.Prepare (L : Lib) (c : conn) (d : testDriver) (query : String) :
    Outcome (Option stmt × Option Error) :=
  let s := Prepare.overrides c query
  let hash := getQueryHash L query
  match d.conn.queries hash with
  | some q =>
    if q.pos = q.queries.length then
      Outcome.ret (none, some ("Exhausted stubs for query: " ++ query))
    else
      match Prepare.fillQuery hash q s with
      | Outcome.panicked msg => Outcome.panicked msg
      | Outcome.ret s1 =>
        match Prepare.fillExec hash q s1 with
        | Outcome.panicked msg => Outcome.panicked msg
        | Outcome.ret s2 => Outcome.ret (Prepare.finish s2 query)
  | none => Outcome.ret (Prepare.finish s query)

/-! ## Building rows -/

/-- The function `RowsFromSlice`. -/
def RowsFromSlice (columns : List String) (data : List (List Value)) : Rows :=
  Rows.own { closed := false, columns := columns, rows := data, pos := 0 }

/-- The body of the inner loop of `RowsFromCSVString`: the cell stored for field `v`. -/
def RowsFromCSVString.cell (L : Lib) (d : testDriver) (v : String) : Value :=
  let v := L.trimSpace v
  if d.enableTimeParsing then
    match L.timeParse d.timeParsingFormat v with
    | some t => Value.time t
    | none => Value.str v
  else
    Value.str v

/-- The inner loop `for i, v := range r` of `RowsFromCSVString`, from index
`i` on: `row[i] = ...` panics when `i` is outside the allocated row. -/
def RowsFromCSVString.fill (L : Lib) (d : testDriver) :
    List String → Nat → List Value → Outcome (List Value)
  | [], _, row => Outcome.ret row
  | v :: rest, i, row =>
    if i < row.length then
      RowsFromCSVString.fill L d rest (i + 1) (row.set i (RowsFromCSVString.cell L d v))
    else
      Outcome.panicked "index out of range"

/-- The outer loop of `RowsFromCSVString` over the records read. -/
def RowsFromCSVString.loop (L : Lib) (d : testDriver) (columns : List String) :
    List (List String) → List (List Value) → Outcome (List (List Value))
  | [], acc => Outcome.ret acc
  | r :: rest, acc =>
    match RowsFromCSVString.fill L d r 0 (List.replicate columns.length Value.null) with
    | Outcome.panicked msg => Outcome.panicked msg
    | Outcome.ret row => RowsFromCSVString.loop L d columns rest (acc ++ [row])

/-- The function `RowsFromCSVString`. -/
def RowsFromCSVString (L : Lib) (d : testDriver) (columns : List String) (s : String) :
    Outcome Rows :=
  match RowsFromCSVString.loop L d columns (L.csvRecords (L.trimSpace s)) [] with
  | Outcome.panicked msg => Outcome.panicked msg
  | Outcome.ret data => Outcome.ret (RowsFromSlice columns data)

/-! ## Harness definitions used by the statements -/

/-- A small concrete library on which the definitions can be evaluated: ASCII
lowering, the identity as a (collision-free) digest, `String.trim`, records
split at line feeds and commas, and a timestamp parser that accepts, under
the RFC 3339 layout only, the 20-character texts with `T` at offset 10 and a
final `Z` (such as `2023-01-02T15:04:05Z`). -/
def sampleLib : Lib :=
  { toLower := Char.toLower,
    sha1 := fun s => s,
    trimSpace := String.trim,
    csvRecords := fun s => if s = "" then [] else (s.splitOn "\n").map (fun l => l.splitOn ","),
    timeParse := fun format v =>
      if format = RFC3339 ∧ v.length = 20 ∧ v.get ⟨10⟩ = Char.ofNat 84 ∧ v.back = Char.ofNat 90
      then some { instant := v } else none }

/-- A query variant as `StubQuery` accepts it: a rows value or an error. -/
abbrev QueryVariant := Rows ⊕ Error

/-- An exec variant as `StubExec` accepts it: a `*Result` pointer or an error. -/
abbrev ExecVariant := Option Result ⊕ Error

/-- The argument passed to `StubQuery` for a query variant. -/
def QueryVariant.arg : QueryVariant → StubArg
  | Sum.inl r => StubArg.rows r
  | Sum.inr e => StubArg.err e

/-- The argument passed to `StubExec` for an exec variant. -/
def ExecVariant.arg : ExecVariant → StubArg
  | Sum.inl r => StubArg.result r
  | Sum.inr e => StubArg.err e

/-- The queue entry that stands for a query variant: only `rows`, or only `err`. -/
def QueryVariant.stub : QueryVariant → query
  | Sum.inl r => { rows := some r, result := none, err := none }
  | Sum.inr e => { rows := none, result := none, err := some e }

/-- The queue entry that stands for an exec variant: only `result`, or only `err`. -/
def ExecVariant.stub : ExecVariant → query
  | Sum.inl r => { rows := none, result := r, err := none }
  | Sum.inr e => { rows := none, result := none, err := some e }

/-- What a caller of `Query` receives for a registered query variant. -/
def QueryVariant.answer : QueryVariant → QueryRet
  | Sum.inl r => (some r, none)
  | Sum.inr e => (none, some e)

/-- The outcomes of `n` successive calls `d.conn.Query(q, args i)`, `i` counting
up from `i0`, on the global connection, and the state after them. -/
def queryRun (L : Lib) (q : String) (args : Nat → List Value) :
    Nat → Nat → testDriver → List (Outcome QueryRet) × testDriver
  | 0, _, d => ([], d)
  | n + 1, i0, d =>
    let r := conn.Query L d.conn d q (args i0)
    let rest := queryRun L q args n (i0 + 1) r.2
    (r.1 :: rest.1, rest.2)

/-- The queue registered under `key`, the empty queue when there is none. -/
def queueAt (d : testDriver) (key : String) : queries :=
  (d.conn.queries key).getD { queries := [], pos := 0 }

/-- Everything outside the queue under `key` is the same in `d` and `e`: the
overrides, the time-parsing configuration and every other queue. -/
def SameOutside (key : String) (d e : testDriver) : Prop :=
  (∀ k, k ≠ key → e.conn.queries k = d.conn.queries k) ∧
  e.conn.queryFunc = d.conn.queryFunc ∧ e.conn.execFunc = d.conn.execFunc ∧
  e.openFunc = d.openFunc ∧
  e.enableTimeParsing = d.enableTimeParsing ∧ e.timeParsingFormat = d.timeParsingFormat

/-- Two query texts (as character lists) that differ only in letter case or in
whitespace: they are related by keeping a character, replacing a
non-whitespace character by one with the same lowercase form, and inserting or
removing a whitespace character on either side, anywhere in the text.
Whitespace is what the pattern `\s` of the source matches. -/
inductive CaseSpaceVariant (L : Lib) : List Char → List Char → Prop where
  | done : CaseSpaceVariant L [] []
  | keep (a : Char) (s t : List Char) :
      CaseSpaceVariant L s t → CaseSpaceVariant L (a :: s) (a :: t)
  | letter (a b : Char) (s t : List Char) :
      isWhitespace a = false → isWhitespace b = false → L.toLower a = L.toLower b →
      CaseSpaceVariant L s t → CaseSpaceVariant L (a :: s) (b :: t)
  | spaceLeft (a : Char) (s t : List Char) :
      isWhitespace a = true → CaseSpaceVariant L s t → CaseSpaceVariant L (a :: s) t
  | spaceRight (b : Char) (s t : List Char) :
      isWhitespace b = true → CaseSpaceVariant L s t → CaseSpaceVariant L s (b :: t)

/-- The position invariant of the registry: `0 ≤ pos ≤ len(queue)` for every queue. -/
def PosInv (d : testDriver) : Prop :=
  ∀ (k : String) (q : queries), d.conn.queries k = some q → q.pos ≤ q.queries.length

/-- The number of populated variants of an entry (non-nil `rows`, non-nil
`result`, non-nil `err`). -/
def query.populated (e : query) : Nat :=
  e.rows.isSome.toNat + e.result.isSome.toNat + e.err.isSome.toNat

/-- An exec variant with a non-nil `*Result`: a mutation result or an error. -/
abbrev ResultVariant := Result ⊕ Error

/-- The exec variant of a mutation result or an error. -/
def ResultVariant.variant : ResultVariant → ExecVariant
  | Sum.inl r => Sum.inl (some r)
  | Sum.inr e => Sum.inr e

/-- Split a character list at every occurrence of `sep`. -/
def splitChars (sep : Char) : List Char → List (List Char)
  | [] => [[]]
  | c :: cs =>
    if c = sep then [] :: splitChars sep cs
    else
      match splitChars sep cs with
      | [] => [[c]]
      | f :: fs => (c :: f) :: fs

/-- Drop the whitespace at both ends of a character list. -/
def trimChars (cs : List Char) : List Char :=
  ((cs.dropWhile Char.isWhitespace).reverse.dropWhile Char.isWhitespace).reverse

/-- The library `sampleLib` with trimming and record splitting written by
structural recursion on the characters, so that proofs can evaluate them:
records are the lines of the text, fields are separated by commas, and the
empty text has no record. -/
def csvLib : Lib :=
  { sampleLib with
    trimSpace := fun s => ⟨trimChars s.data⟩,
    csvRecords := fun s =>
      if s.data = [] then []
      else (splitChars (Char.ofNat 10) s.data).map
        (fun l => (splitChars (Char.ofNat 44) l).map String.mk) }

/-- The row `RowsFromCSVString` builds for a record that fits the columns: one
cell per field, then nil for the columns the record does not reach. -/
def csvRow (L : Lib) (d : testDriver) (columns : List String) (r : List String) : List Value :=
  r.map (RowsFromCSVString.cell L d) ++ List.replicate (columns.length - r.length) Value.null

/-- The outcomes of `k` successive invocations of a statement closure `g`, the
`i`-th on `args i` (counting up from `i0`), and the state after them. -/
def invokeTimes {α : Type} (g : List Value → testDriver → Outcome α × testDriver)
    (args : Nat → List Value) : Nat → Nat → testDriver → List (Outcome α) × testDriver
  | 0, _, d => ([], d)
  | k + 1, i0, d =>
    let r := g (args i0) d
    let rest := invokeTimes g args k (i0 + 1) r.2
    (r.1 :: rest.1, rest.2)

/-- The queue entry of a rows result, as `StubQuery` stores it. -/
def storedRows (R : Rows) : query :=
  { rows := some R, result := none, err := none }

/-- What a caller receives for a stored rows value that is handed out cloned
where it can be: for a `*rows` of this package a clone (same columns and data,
position 0, not closed), for any other `driver.Rows` the stored value itself. -/
def handedOut : Rows → Rows
  | Rows.own r => Rows.own { closed := false, columns := r.columns, rows := r.rows, pos := 0 }
  | Rows.foreign tag => Rows.foreign tag

/-- The key derivation as the specification words it: "lowercase the query
text, strip all whitespace characters, then hash". -/
def specQueryKey (L : Lib) (query : String) : String :=
  L.sha1 (stripWhitespace (stringsToLower L query))

@[simp] theorem setQueue_same (d : testDriver) (key : String) (q : queries) :
    (setQueue d key q).conn.queries key = some q := by
  simp [setQueue]

theorem setQueue_other (d : testDriver) (key k : String) (q : queries) (h : k ≠ key) :
    (setQueue d key q).conn.queries k = d.conn.queries k := by
  simp [setQueue, h]

theorem setQueue_setQueue (d : testDriver) (key : String) (q1 q2 : queries) :
    setQueue (setQueue d key q1) key q2 = setQueue d key q2 := by
  simp only [setQueue]
  congr 2
  funext k
  by_cases h : k = key <;> simp [h]

theorem setQueue_self (d : testDriver) (key : String) (q : queries)
    (h : d.conn.queries key = some q) : setQueue d key q = d := by
  obtain ⟨o, ⟨qs, qf, ef⟩, b, t⟩ := d
  simp only [setQueue]
  congr 2
  funext k
  by_cases hk : k = key
  · subst hk; simpa using h.symm
  · simp [hk]

theorem sameOutside_setQueue (d : testDriver) (key : String) (q : queries) :
    SameOutside key d (setQueue d key q) := by
  refine ⟨fun k hk => setQueue_other d key k q hk, rfl, rfl, rfl, rfl, rfl⟩

theorem sameOutside_refl (key : String) (d : testDriver) : SameOutside key d d :=
  ⟨fun _ _ => rfl, rfl, rfl, rfl, rfl, rfl⟩

/-! ## Unregistered queries -/

/-- C3: when the key of `q` has no queue in the registry, `Query` (with no
query override on the receiver) fails with "Query not stubbed: " followed by
`q`, `Exec` (with no exec override on the receiver) fails with
"Exec call not stubbed: " followed by `q`, and both return the state as it
was, so every queue and every position is unchanged. -/
theorem unregistered_query_and_exec_fail (L : Lib) (c : conn) (d : testDriver) (q : String)
    (args : List Value) (h : d.conn.queries (getQueryHash L q) = none) :
    (c.queryFunc = none →
      conn.Query L c d q args = (Outcome.ret (none, some ("Query not stubbed: " ++ q)), d)) ∧
    (c.execFunc = none →
      conn.Exec L c d q args = (Outcome.ret (none, some ("Exec call not stubbed: " ++ q)), d)) := by
  constructor
  · intro hf
    simp [conn.Query, hf, h]
  · intro hf
    simp [conn.Exec, hf, h]

/-- Witness for C3: the query text "SELECT 1" on a new driver. -/
theorem unregistered_query_and_exec_fail_witness :
    conn.Query sampleLib newDriver.conn newDriver "SELECT 1" []
        = (Outcome.ret (none, some ("Query not stubbed: " ++ "SELECT 1")), newDriver) ∧
      conn.Exec sampleLib newDriver.conn newDriver "SELECT 1" []
        = (Outcome.ret (none, some ("Exec call not stubbed: " ++ "SELECT 1")), newDriver) :=
  ⟨(unregistered_query_and_exec_fail sampleLib newDriver.conn newDriver "SELECT 1" [] rfl).1 rfl,
   (unregistered_query_and_exec_fail sampleLib newDriver.conn newDriver "SELECT 1" [] rfl).2 rfl⟩

/-! ## The query override -/

/-- C5: when the receiver has a query override `f`, `Query` returns exactly
`f q args` and the state as it was, whatever the registry holds for `q`. -/
theorem query_override_answers (L : Lib) (c : conn) (d : testDriver) (q : String)
    (args : List Value) (f : String → List Value → QueryRet) (h : c.queryFunc = some f) :
    conn.Query L c d q args = (Outcome.ret (f q args), d) := by
  simp [conn.Query, h]

/-- Witness for C5: an override that answers every query with the error "down". -/
theorem query_override_answers_witness :
    conn.Query sampleLib
        (SetQueryWithArgsFunc (some (fun _ _ => (none, some "down"))) newDriver).conn
        newDriver "SELECT 1" [Value.str "a"]
      = (Outcome.ret (none, some "down"), newDriver) :=
  query_override_answers sampleLib
    (SetQueryWithArgsFunc (some (fun _ _ => (none, some "down"))) newDriver).conn
    newDriver "SELECT 1" [Value.str "a"] (fun _ _ => (none, some "down")) rfl

/-! ## Reset -/

/-- C6: after `Reset` the connection has an empty registry, no query override
and no exec override, the open override is cleared, and `Query` on the new
connection fails with "Query not stubbed: " followed by `q` for every `q`. -/
theorem reset_clears_stubs_and_overrides (L : Lib) (d : testDriver) :
    (∀ k, (Reset d).conn.queries k = none) ∧
    (Reset d).conn.queryFunc = none ∧
    (Reset d).conn.execFunc = none ∧
    (Reset d).openFunc = none ∧
    ∀ (q : String) (args : List Value),
      conn.Query L (Reset d).conn (Reset d) q args
        = (Outcome.ret (none, some ("Query not stubbed: " ++ q)), Reset d) := by
  refine ⟨fun _ => rfl, rfl, rfl, rfl, fun q args => ?_⟩
  simp [conn.Query, Reset, newConn]

theorem cell_congr (L : Lib) (d e : testDriver)
    (h1 : e.enableTimeParsing = d.enableTimeParsing)
    (h2 : e.timeParsingFormat = d.timeParsingFormat) (v : String) :
    RowsFromCSVString.cell L e v = RowsFromCSVString.cell L d v := by
  simp [RowsFromCSVString.cell, h1, h2]

theorem fill_congr (L : Lib) (d e : testDriver)
    (h1 : e.enableTimeParsing = d.enableTimeParsing)
    (h2 : e.timeParsingFormat = d.timeParsingFormat) (r : List String) :
    ∀ (i : Nat) (row : List Value),
      RowsFromCSVString.fill L e r i row = RowsFromCSVString.fill L d r i row := by
  induction r with
  | nil => intro i row; rfl
  | cons v rest ih =>
    intro i row
    simp only [RowsFromCSVString.fill, cell_congr L d e h1 h2, ih]

theorem loop_congr (L : Lib) (d e : testDriver)
    (h1 : e.enableTimeParsing = d.enableTimeParsing)
    (h2 : e.timeParsingFormat = d.timeParsingFormat) (columns : List String)
    (rs : List (List String)) :
    ∀ acc : List (List Value),
      RowsFromCSVString.loop L e columns rs acc = RowsFromCSVString.loop L d columns rs acc := by
  induction rs with
  | nil => intro acc; rfl
  | cons r rest ih =>
    intro acc
    simp only [RowsFromCSVString.loop, fill_congr L d e h1 h2, ih]

/-- C7: `Reset` leaves `enableTimeParsing` and `timeParsingFormat` as they
were, and `RowsFromCSVString` gives the same result for the same columns and
text before and after a `Reset`. -/
theorem reset_keeps_time_parsing (L : Lib) (d : testDriver) :
    (Reset d).enableTimeParsing = d.enableTimeParsing ∧
    (Reset d).timeParsingFormat = d.timeParsingFormat ∧
    ∀ (columns : List String) (s : String),
      RowsFromCSVString L (Reset d) columns s = RowsFromCSVString L d columns s := by
  refine ⟨rfl, rfl, fun columns s => ?_⟩
  simp only [RowsFromCSVString, loop_congr L d (Reset d) rfl rfl]

/-! ## Registration appends -/

theorem stubLoop_accepts (entry : StubArg → Option query) (hash : String)
    (vs : List StubArg) (es : List query) (hes : vs.map entry = es.map some) :
    ∀ (d : testDriver) (q0 : queries), d.conn.queries hash = some q0 →
      stubLoop entry hash vs d
        = (Outcome.ret (), setQueue d hash { queries := q0.queries ++ es, pos := q0.pos }) := by
  induction vs generalizing es with
  | nil =>
    intro d q0 hq
    cases es with
    | nil => simp [stubLoop, setQueue_self d hash q0 hq]
    | cons e es => simp at hes
  | cons v vs ih =>
    intro d q0 hq
    cases es with
    | nil => simp at hes
    | cons e es =>
      simp only [List.map_cons, List.cons.injEq] at hes
      obtain ⟨hv, hrest⟩ := hes
      simp only [stubLoop, hv, hq]
      rw [ih es hrest _ _ (setQueue_same _ _ _), setQueue_setQueue]
      simp

theorem ensureQueue_lookup (d : testDriver) (hash : String) :
    (ensureQueue d hash).conn.queries hash = some (queueAt d hash) := by
  unfold ensureQueue queueAt
  cases h : d.conn.queries hash with
  | none => simp
  | some q => simp [h]

theorem ensureQueue_setQueue (d : testDriver) (hash : String) (q : queries) :
    setQueue (ensureQueue d hash) hash q = setQueue d hash q := by
  unfold ensureQueue
  cases h : d.conn.queries hash with
  | none => simp [setQueue_setQueue]
  | some q0 => simp

theorem StubQuery_variants (L : Lib) (q : String) (vs : List QueryVariant) (d : testDriver) :
    StubQuery L q (vs.map QueryVariant.arg) d
      = (Outcome.ret (),
          setQueue d (getQueryHash L q)
            { queries := (queueAt d (getQueryHash L q)).queries ++ vs.map QueryVariant.stub,
              pos := (queueAt d (getQueryHash L q)).pos }) := by
  have hes : (vs.map QueryVariant.arg).map StubQuery.entry
      = (vs.map QueryVariant.stub).map some := by
    simp only [List.map_map]
    apply List.map_congr_left
    intro v _
    cases v <;> rfl
  simp only [StubQuery]
  rw [stubLoop_accepts _ _ _ _ hes _ _ (ensureQueue_lookup d _), ensureQueue_setQueue]

theorem StubExec_variants (L : Lib) (q : String) (vs : List ExecVariant) (d : testDriver) :
    StubExec L q (vs.map ExecVariant.arg) d
      = (Outcome.ret (),
          setQueue d (getQueryHash L q)
            { queries := (queueAt d (getQueryHash L q)).queries ++ vs.map ExecVariant.stub,
              pos := (queueAt d (getQueryHash L q)).pos }) := by
  have hes : (vs.map ExecVariant.arg).map StubExec.entry
      = (vs.map ExecVariant.stub).map some := by
    simp only [List.map_map]
    apply List.map_congr_left
    intro v _
    cases v <;> rfl
  simp only [StubExec]
  rw [stubLoop_accepts _ _ _ _ hes _ _ (ensureQueue_lookup d _), ensureQueue_setQueue]

theorem StubQuery_entry_isSome_iff (a : StubArg) :
    (StubQuery.entry a).isSome ↔ ∃ v : QueryVariant, a = v.arg := by
  constructor
  · intro h
    cases a with
    | rows r => exact ⟨Sum.inl r, rfl⟩
    | err e => exact ⟨Sum.inr e, rfl⟩
    | result r => simp [StubQuery.entry] at h
    | other t => simp [StubQuery.entry] at h
  · rintro ⟨v, rfl⟩
    cases v <;> rfl

theorem StubExec_entry_isSome_iff (a : StubArg) :
    (StubExec.entry a).isSome ↔ ∃ v : ExecVariant, a = v.arg := by
  constructor
  · intro h
    cases a with
    | result r => exact ⟨Sum.inl r, rfl⟩
    | err e => exact ⟨Sum.inr e, rfl⟩
    | rows r => simp [StubExec.entry] at h
    | other t => simp [StubExec.entry] at h
  · rintro ⟨v, rfl⟩
    cases v <;> rfl

/-- C10: registration is additive.  For every state, query text and list of
valid variants, `StubQuery` (respectively `StubExec`) returns normally, the
queue under the key of `q` afterwards is the queue that was there before (the
empty queue when there was none) with one entry per variant appended in the
given order and with the same `pos`, and everything outside that queue, the
queues under all other keys included, is unchanged. -/
theorem registration_is_additive (L : Lib) (d : testDriver) (q : String) :
    (∀ vs : List QueryVariant,
      (StubQuery L q (vs.map QueryVariant.arg) d).1 = Outcome.ret () ∧
      (StubQuery L q (vs.map QueryVariant.arg) d).2.conn.queries (getQueryHash L q)
        = some { queries := (queueAt d (getQueryHash L q)).queries ++ vs.map QueryVariant.stub,
                 pos := (queueAt d (getQueryHash L q)).pos } ∧
      SameOutside (getQueryHash L q) d (StubQuery L q (vs.map QueryVariant.arg) d).2) ∧
    (∀ vs : List ExecVariant,
      (StubExec L q (vs.map ExecVariant.arg) d).1 = Outcome.ret () ∧
      (StubExec L q (vs.map ExecVariant.arg) d).2.conn.queries (getQueryHash L q)
        = some { queries := (queueAt d (getQueryHash L q)).queries ++ vs.map ExecVariant.stub,
                 pos := (queueAt d (getQueryHash L q)).pos } ∧
      SameOutside (getQueryHash L q) d (StubExec L q (vs.map ExecVariant.arg) d).2) := by
  constructor
  · intro vs
    rw [StubQuery_variants]
    exact ⟨rfl, setQueue_same _ _ _, sameOutside_setQueue _ _ _⟩
  · intro vs
    rw [StubExec_variants]
    exact ⟨rfl, setQueue_same _ _ _, sameOutside_setQueue _ _ _⟩

/-! ## Sequential consumption -/

theorem Query_registry_step (L : Lib) (c : conn) (d : testDriver) (q : String)
    (args : List Value) (qu : queries) (e : query) (hf : c.queryFunc = none)
    (hq : d.conn.queries (getQueryHash L q) = some qu)
    (he : qu.queries[qu.pos]? = some e) :
    conn.Query L c d q args
      = (Outcome.ret (e.rows, e.err), setQueue d (getQueryHash L q) qu.advance) := by
  have hlt : qu.pos < qu.queries.length := by
    rcases Nat.lt_or_ge qu.pos qu.queries.length with h | h
    · exact h
    · rw [List.getElem?_eq_none h] at he; cases he
  simp [conn.Query, hf, hq, he, Nat.ne_of_lt hlt]

theorem Query_registry_exhausted (L : Lib) (c : conn) (d : testDriver) (q : String)
    (args : List Value) (qu : queries) (hf : c.queryFunc = none)
    (hq : d.conn.queries (getQueryHash L q) = some qu)
    (he : qu.pos = qu.queries.length) :
    conn.Query L c d q args
      = (Outcome.ret (none, some ("Exhausted stubs for query: " ++ q)), d) := by
  simp [conn.Query, hf, hq, he]

theorem queryRun_drain (L : Lib) (q : String) (args : Nat → List Value) :
    ∀ (n i0 : Nat) (d : testDriver) (qu : queries), d.conn.queryFunc = none →
      d.conn.queries (getQueryHash L q) = some qu → qu.pos + n = qu.queries.length →
      (queryRun L q args (n + 1) i0 d).1
        = (qu.queries.drop qu.pos).map (fun e => Outcome.ret (e.rows, e.err))
            ++ [Outcome.ret (none, some ("Exhausted stubs for query: " ++ q))] := by
  intro n
  induction n with
  | zero =>
    intro i0 d qu hf hq hlen
    have hpos : qu.pos = qu.queries.length := by omega
    simp [queryRun, Query_registry_exhausted L d.conn d q (args i0) qu hf hq hpos, hpos]
  | succ n ih =>
    intro i0 d qu hf hq hlen
    have hlt : qu.pos < qu.queries.length := by omega
    have he : qu.queries[qu.pos]? = some (qu.queries[qu.pos]) := List.getElem?_eq_getElem hlt
    have hstep := Query_registry_step L d.conn d q (args i0) qu _ hf hq he
    have hrest := ih (i0 + 1) (setQueue d (getQueryHash L q) qu.advance) qu.advance
      hf (setQueue_same _ _ _) (by simp only [queries.advance]; omega)
    have hd : qu.queries.drop qu.pos = qu.queries[qu.pos] :: qu.queries.drop (qu.pos + 1) :=
      List.drop_eq_getElem_cons hlt
    rw [queryRun]
    simp only [hstep, hd, List.map_cons, List.cons_append]
    rw [hrest]
    simp only [queries.advance]

theorem stubbed_answers_drain_in_order (L : Lib) (d : testDriver) (q : String)
    (vs : List QueryVariant) (args : Nat → List Value) :
    (queryRun L q args (vs.length + 1) 0
        (StubQuery L q (vs.map QueryVariant.arg) (Reset d)).2).1
      = vs.map (fun v => Outcome.ret v.answer)
          ++ [Outcome.ret (none, some ("Exhausted stubs for query: " ++ q))] := by
  rw [StubQuery_variants]
  have hq0 : queueAt (Reset d) (getQueryHash L q) = { queries := [], pos := 0 } := rfl
  rw [hq0]
  have h := queryRun_drain L q args vs.length 0
    (setQueue (Reset d) (getQueryHash L q)
      { queries := [] ++ vs.map QueryVariant.stub, pos := 0 })
    { queries := [] ++ vs.map QueryVariant.stub, pos := 0 } rfl (setQueue_same _ _ _)
    (by simp)
  rw [h]
  simp only [List.nil_append, List.drop_zero, List.map_map, List.append_cancel_right_eq]
  apply List.map_congr_left
  intro v _
  cases v <;> rfl

/-- C1: on a freshly reset connection, after `StubQuery(q, vs...)` with `N`
variants (each a rows value or an error), `N + 1` successive calls of
`Query(q, args)` return, in registration order, exactly the `N` registered
entries (the rows, or the error), and then the error
"Exhausted stubs for query: " followed by `q`. -/
theorem query_returns_stubs_in_order (L : Lib) (d : testDriver) (q : String)
    (vs : List QueryVariant) (args : Nat → List Value) :
    (StubQuery L q (vs.map QueryVariant.arg) (Reset d)).1 = Outcome.ret () ∧
    (queryRun L q args (vs.length + 1) 0
        (StubQuery L q (vs.map QueryVariant.arg) (Reset d)).2).1
      = vs.map (fun v => Outcome.ret v.answer)
          ++ [Outcome.ret (none, some ("Exhausted stubs for query: " ++ q))] := by
  refine ⟨?_, stubbed_answers_drain_in_order L d q vs args⟩
  rw [StubQuery_variants]

/-! ## One call advances one position -/

/-- C8: with no override on the receiver, one call of `Query` (respectively
`Exec`) on a query whose queue exists and is not exhausted leaves that queue
with the same entries and `pos` increased by exactly one, whatever the entry
at `pos` holds, and changes nothing outside that queue. -/
theorem consult_advances_pos_by_one (L : Lib) (c : conn) (d : testDriver) (q : String)
    (args : List Value) (qu : queries)
    (hq : d.conn.queries (getQueryHash L q) = some qu)
    (hne : qu.pos ≠ qu.queries.length) :
    (c.queryFunc = none →
      (conn.Query L c d q args).2.conn.queries (getQueryHash L q)
        = some { queries := qu.queries, pos := qu.pos + 1 } ∧
      SameOutside (getQueryHash L q) d (conn.Query L c d q args).2) ∧
    (c.execFunc = none →
      (conn.Exec L c d q args).2.conn.queries (getQueryHash L q)
        = some { queries := qu.queries, pos := qu.pos + 1 } ∧
      SameOutside (getQueryHash L q) d (conn.Exec L c d q args).2) := by
  constructor
  · intro hf
    have hst : (conn.Query L c d q args).2 = setQueue d (getQueryHash L q) qu.advance := by
      simp only [conn.Query, hf, hq, hne, if_false]
      cases qu.queries[qu.pos]? <;> rfl
    rw [hst]
    exact ⟨setQueue_same _ _ _, sameOutside_setQueue _ _ _⟩
  · intro hf
    have hst : (conn.Exec L c d q args).2 = setQueue d (getQueryHash L q) qu.advance := by
      simp only [conn.Exec, hf, hq, hne, if_false]
      cases qu.queries[qu.pos]? with
      | none => rfl
      | some e =>
        cases hr : e.result with
        | some r => simp [hr]
        | none =>
          cases he : e.err with
          | some err => simp [hr, he]
          | none => simp [hr, he]
    rw [hst]
    exact ⟨setQueue_same _ _ _, sameOutside_setQueue _ _ _⟩

/-- Witness for C8: a queue of one error entry at position 0. -/
theorem consult_advances_pos_by_one_witness :
    ((conn.Query sampleLib newConn
          (setQueue newDriver (getQueryHash sampleLib "SELECT 1")
            { queries := [{ rows := none, result := none, err := some "boom" }], pos := 0 })
          "SELECT 1" []).2.conn.queries (getQueryHash sampleLib "SELECT 1")
        = some { queries := [{ rows := none, result := none, err := some "boom" }],
                 pos := 0 + 1 }) ∧
      ((conn.Exec sampleLib newConn
          (setQueue newDriver (getQueryHash sampleLib "SELECT 1")
            { queries := [{ rows := none, result := none, err := some "boom" }], pos := 0 })
          "SELECT 1" []).2.conn.queries (getQueryHash sampleLib "SELECT 1")
        = some { queries := [{ rows := none, result := none, err := some "boom" }],
                 pos := 0 + 1 }) :=
  ⟨((consult_advances_pos_by_one sampleLib newConn
        (setQueue newDriver (getQueryHash sampleLib "SELECT 1")
          { queries := [{ rows := none, result := none, err := some "boom" }], pos := 0 })
        "SELECT 1" [] { queries := [{ rows := none, result := none, err := some "boom" }], pos := 0 }
        (setQueue_same _ _ _) (by decide)).1 rfl).1,
   ((consult_advances_pos_by_one sampleLib newConn
        (setQueue newDriver (getQueryHash sampleLib "SELECT 1")
          { queries := [{ rows := none, result := none, err := some "boom" }], pos := 0 })
        "SELECT 1" [] { queries := [{ rows := none, result := none, err := some "boom" }], pos := 0 }
        (setQueue_same _ _ _) (by decide)).2 rfl).1⟩

/-! ## Keys ignore case and whitespace -/

theorem CaseSpaceVariant.rfl_of (L : Lib) (s : List Char) : CaseSpaceVariant L s s := by
  induction s with
  | nil => exact CaseSpaceVariant.done
  | cons a s ih => exact CaseSpaceVariant.keep a s s ih

theorem CaseSpaceVariant.symm_of (L : Lib) (s t : List Char) (h : CaseSpaceVariant L s t) :
    CaseSpaceVariant L t s := by
  induction h with
  | done => exact CaseSpaceVariant.done
  | keep a s t _ ih => exact CaseSpaceVariant.keep a t s ih
  | letter a b s t ha hb hab _ ih => exact CaseSpaceVariant.letter b a t s hb ha hab.symm ih
  | spaceLeft a s t ha _ ih => exact CaseSpaceVariant.spaceRight a t s ha ih
  | spaceRight b s t hb _ ih => exact CaseSpaceVariant.spaceLeft b t s hb ih

theorem CaseSpaceVariant.insert_space (L : Lib) (c : Char) (hc : isWhitespace c = true)
    (s t : List Char) : CaseSpaceVariant L (s ++ t) (s ++ c :: t) := by
  induction s with
  | nil => exact CaseSpaceVariant.spaceRight c t t hc (CaseSpaceVariant.rfl_of L t)
  | cons a s ih => exact CaseSpaceVariant.keep a _ _ ih

theorem CaseSpaceVariant.lower_letter (L : Lib)
    (hidem : ∀ c : Char, L.toLower (L.toLower c) = L.toLower c)
    (hws : ∀ c : Char, isWhitespace (L.toLower c) = isWhitespace c)
    (c : Char) (s t : List Char) :
    CaseSpaceVariant L (s ++ c :: t) (s ++ L.toLower c :: t) := by
  induction s with
  | nil =>
    cases hc : isWhitespace c with
    | true =>
      exact CaseSpaceVariant.spaceLeft c t _ hc
        (CaseSpaceVariant.spaceRight (L.toLower c) t t (by rw [hws, hc])
          (CaseSpaceVariant.rfl_of L t))
    | false =>
      exact CaseSpaceVariant.letter c (L.toLower c) t t hc (by rw [hws, hc]) (hidem c).symm
        (CaseSpaceVariant.rfl_of L t)
  | cons a s ih => exact CaseSpaceVariant.keep a _ _ ih

theorem isWhitespace_iff (c : Char) :
    isWhitespace c = true ↔
      (c = Char.ofNat 9 ∨ c = Char.ofNat 10 ∨ c = Char.ofNat 12 ∨ c = Char.ofNat 13 ∨
        c = Char.ofNat 32) := by
  have hval : ∀ n : Nat, n < 128 → (c.toNat = n ↔ c = Char.ofNat n) := by
    intro n hn
    constructor
    · intro h
      rw [← h, Char.ofNat_toNat]
    · rintro rfl
      interval_cases n <;> rfl
  simp only [isWhitespace, Bool.or_eq_true, decide_eq_true_eq]
  rw [hval 9 (by decide), hval 10 (by decide), hval 12 (by decide), hval 13 (by decide),
    hval 32 (by decide)]
  tauto

/-- C4: evaluation of `Prepare` at the two inputs where its final test decides.
On a new driver (no override, empty registry) both capabilities of the
statement are unfilled and `Prepare` succeeds, returning that statement with no
error; with a query override and an exec override installed both capabilities
are filled and `Prepare` fails with "Query not stubbed: SELECT 1". -/
theorem prepare_final_test_is_inverted :
    conn.Prepare sampleLib newDriver.conn newDriver "SELECT 1"
      = Outcome.ret (some { queryFunc := none, execFunc := none }, none) ∧
    conn.Prepare sampleLib
        (SetExecWithArgsFunc (some (fun _ _ => (none, some "down")))
          (SetQueryWithArgsFunc (some (fun _ _ => (none, some "down"))) newDriver)).conn
        (SetExecWithArgsFunc (some (fun _ _ => (none, some "down")))
          (SetQueryWithArgsFunc (some (fun _ _ => (none, some "down"))) newDriver))
        "SELECT 1"
      = Outcome.ret (some { queryFunc := none, execFunc := none },
          some "Query not stubbed: SELECT 1") := by
  constructor
  · rfl
  · rfl

/-! ## The position invariant -/

theorem posInv_setQueue (d : testDriver) (key : String) (q : queries) (hd : PosInv d)
    (hq : q.pos ≤ q.queries.length) : PosInv (setQueue d key q) := by
  intro k q1 hk
  by_cases h : k = key
  · subst h
    rw [setQueue_same] at hk
    cases hk
    exact hq
  · rw [setQueue_other d key k q h] at hk
    exact hd k q1 hk

theorem posInv_newDriver : PosInv newDriver := by
  intro k q hk
  cases hk

theorem posInv_Reset (d : testDriver) : PosInv (Reset d) := by
  intro k q hk
  cases hk

theorem posInv_ensureQueue (d : testDriver) (hash : String) (hd : PosInv d) :
    PosInv (ensureQueue d hash) := by
  unfold ensureQueue
  cases h : d.conn.queries hash with
  | none => exact posInv_setQueue d hash _ hd (Nat.le_refl 0)
  | some q => exact hd

theorem posInv_stubLoop (entry : StubArg → Option query) (hash : String) (vs : List StubArg) :
    ∀ d : testDriver, PosInv d → PosInv (stubLoop entry hash vs d).2 := by
  induction vs with
  | nil => intro d hd; exact hd
  | cons v vs ih =>
    intro d hd
    simp only [stubLoop]
    cases entry v with
    | none => exact hd
    | some qr =>
      cases hq : d.conn.queries hash with
      | none => exact hd
      | some q =>
        apply ih
        apply posInv_setQueue d hash _ hd
        have := hd hash q hq
        simp only [List.length_append, List.length_singleton]
        omega

theorem posInv_StubQuery (L : Lib) (q : String) (r : List StubArg) (d : testDriver)
    (hd : PosInv d) : PosInv (StubQuery L q r d).2 :=
  posInv_stubLoop _ _ r _ (posInv_ensureQueue d _ hd)

theorem posInv_StubExec (L : Lib) (q : String) (r : List StubArg) (d : testDriver)
    (hd : PosInv d) : PosInv (StubExec L q r d).2 :=
  posInv_stubLoop _ _ r _ (posInv_ensureQueue d _ hd)

theorem posInv_advance (d : testDriver) (key : String) (q : queries) (hd : PosInv d)
    (hq : d.conn.queries key = some q) (hne : q.pos ≠ q.queries.length) :
    PosInv (setQueue d key q.advance) := by
  apply posInv_setQueue d key _ hd
  have := hd key q hq
  simp only [queries.advance]
  omega

theorem Query_state (L : Lib) (c : conn) (d : testDriver) (q : String) (args : List Value) :
    (conn.Query L c d q args).2 = d ∨
    ∃ qu, d.conn.queries (getQueryHash L q) = some qu ∧ qu.pos ≠ qu.queries.length ∧
      (conn.Query L c d q args).2 = setQueue d (getQueryHash L q) qu.advance := by
  unfold conn.Query
  split
  · exact Or.inl rfl
  · dsimp only
    split
    · next qu hq =>
      split
      · exact Or.inl rfl
      · next hne =>
        right
        refine ⟨qu, hq, hne, ?_⟩
        split <;> rfl
    · exact Or.inl rfl

theorem Exec_state (L : Lib) (c : conn) (d : testDriver) (q : String) (args : List Value) :
    (conn.Exec L c d q args).2 = d ∨
    ∃ qu, d.conn.queries (getQueryHash L q) = some qu ∧ qu.pos ≠ qu.queries.length ∧
      (conn.Exec L c d q args).2 = setQueue d (getQueryHash L q) qu.advance := by
  unfold conn.Exec
  split
  · exact Or.inl rfl
  · dsimp only
    split
    · next qu hq =>
      split
      · exact Or.inl rfl
      · next hne =>
        right
        refine ⟨qu, hq, hne, ?_⟩
        split
        · rfl
        · split
          · rfl
          · split <;> rfl
    · exact Or.inl rfl

theorem posInv_Query (L : Lib) (c : conn) (d : testDriver) (q : String) (args : List Value)
    (hd : PosInv d) : PosInv (conn.Query L c d q args).2 := by
  rcases Query_state L c d q args with h | ⟨qu, hq, hne, h⟩
  · rw [h]; exact hd
  · rw [h]; exact posInv_advance d _ qu hd hq hne

theorem posInv_Exec (L : Lib) (c : conn) (d : testDriver) (q : String) (args : List Value)
    (hd : PosInv d) : PosInv (conn.Exec L c d q args).2 := by
  rcases Exec_state L c d q args with h | ⟨qu, hq, hne, h⟩
  · rw [h]; exact hd
  · rw [h]; exact posInv_advance d _ qu hd hq hne

theorem queryBody_state (q : queries) : (Prepare.queryBody q).2 = q.advance := by
  unfold Prepare.queryBody
  split
  · rfl
  · split <;> rfl

theorem execBody_state (q : queries) : (Prepare.execBody q).2 = q.advance := by
  unfold Prepare.execBody
  split
  · rfl
  · split <;> rfl

theorem posInv_closures_before_end (hash : String) (args : List Value) (d : testDriver)
    (q : queries) (hd : PosInv d) (hq : d.conn.queries hash = some q)
    (hne : q.pos ≠ q.queries.length) :
    PosInv (Prepare.queryRegistry hash args d).2 ∧
    PosInv (Prepare.execRegistry hash args d).2 := by
  have h := posInv_advance d hash q hd hq hne
  constructor
  · simpa [Prepare.queryRegistry, onQueue, hq, queryBody_state] using h
  · simpa [Prepare.execRegistry, onQueue, hq, execBody_state] using h

/-- C9: evaluation of the query closure of a prepared statement past the end
of its queue.  After `StubQuery("SELECT 1", rows)` on a new driver, `Prepare`
returns a statement whose query closure is registry-backed; its first
invocation returns the rows and leaves `pos = 1 = len(queue)`; its second
invocation panics on `q.queries[q.pos]` and its deferred `q.pos++` leaves
`pos = 2` on a queue of length 1. -/
theorem prepared_query_closure_overruns_queue :
    ∃ g : List Value → testDriver → Outcome QueryRet × testDriver,
      conn.Prepare sampleLib
          (StubQuery sampleLib "SELECT 1" [StubArg.rows (RowsFromSlice ["id"] [])] newDriver).2.conn
          (StubQuery sampleLib "SELECT 1" [StubArg.rows (RowsFromSlice ["id"] [])] newDriver).2
          "SELECT 1"
        = Outcome.ret (some { queryFunc := some g, execFunc := none }, none) ∧
      ((g [] (StubQuery sampleLib "SELECT 1"
            [StubArg.rows (RowsFromSlice ["id"] [])] newDriver).2).2.conn.queries
          (getQueryHash sampleLib "SELECT 1")).map (fun q => (q.pos, q.queries.length))
        = some (1, 1) ∧
      (g [] (g [] (StubQuery sampleLib "SELECT 1"
            [StubArg.rows (RowsFromSlice ["id"] [])] newDriver).2).2).1
        = Outcome.panicked "index out of range" ∧
      ((g [] (g [] (StubQuery sampleLib "SELECT 1"
            [StubArg.rows (RowsFromSlice ["id"] [])] newDriver).2).2).2.conn.queries
          (getQueryHash sampleLib "SELECT 1")).map (fun q => (q.pos, q.queries.length))
        = some (2, 1) := by
  refine ⟨Prepare.queryRegistry (getQueryHash sampleLib "SELECT 1"), ?_, ?_, ?_, ?_⟩
  · rfl
  · rfl
  · rfl
  · rfl

/-! ## Rejected stub values -/

theorem stubLoop_outcome (entry : StubArg → Option query) (hash : String) (vs : List StubArg) :
    ∀ d : testDriver, (d.conn.queries hash).isSome = true →
      (stubLoop entry hash vs d).1
        = if vs.all (fun v => (entry v).isSome) then Outcome.ret ()
          else Outcome.panicked "invalid value for stub result" := by
  induction vs with
  | nil => intro d _; rfl
  | cons v vs ih =>
    intro d hd
    cases hv : entry v with
    | none => simp [stubLoop, hv]
    | some qr =>
      cases hq : d.conn.queries hash with
      | none => simp [hq] at hd
      | some q0 =>
        simp only [stubLoop, hv, hq, List.all_cons, Option.isSome_some, Bool.true_and]
        exact ih _ (by simp)

theorem ensureQueue_isSome (d : testDriver) (hash : String) :
    ((ensureQueue d hash).conn.queries hash).isSome = true := by
  rw [ensureQueue_lookup]
  rfl

theorem StubQuery_entry_isSome_cases (a : StubArg) :
    (StubQuery.entry a).isSome = true ↔ ((∃ r, a = StubArg.rows r) ∨ (∃ e, a = StubArg.err e)) := by
  cases a <;> simp [StubQuery.entry]

theorem StubExec_entry_isSome_cases (a : StubArg) :
    (StubExec.entry a).isSome = true ↔ ((∃ r, a = StubArg.result r) ∨ (∃ e, a = StubArg.err e)) := by
  cases a <;> simp [StubExec.entry]

/-- C11: `StubQuery` panics with "invalid value for stub result" if and only
if some argument is neither a rows value nor an error, and returns normally
otherwise; `StubExec` panics with that message if and only if some argument is
neither a `*Result` nor an error, and returns normally otherwise.  In
particular a `*Result` passed to `StubQuery` and a rows value passed to
`StubExec` make the call panic. -/
theorem stub_aborts_iff_invalid_value (L : Lib) (d : testDriver) (q : String) :
    (∀ vs : List StubArg,
      ((StubQuery L q vs d).1 = Outcome.panicked "invalid value for stub result" ↔
        ∃ v ∈ vs, ¬ ((∃ r, v = StubArg.rows r) ∨ (∃ e, v = StubArg.err e))) ∧
      ((StubQuery L q vs d).1 = Outcome.ret () ↔
        ∀ v ∈ vs, (∃ r, v = StubArg.rows r) ∨ (∃ e, v = StubArg.err e))) ∧
    (∀ vs : List StubArg,
      ((StubExec L q vs d).1 = Outcome.panicked "invalid value for stub result" ↔
        ∃ v ∈ vs, ¬ ((∃ r, v = StubArg.result r) ∨ (∃ e, v = StubArg.err e))) ∧
      ((StubExec L q vs d).1 = Outcome.ret () ↔
        ∀ v ∈ vs, (∃ r, v = StubArg.result r) ∨ (∃ e, v = StubArg.err e))) ∧
    (∀ r : Option Result,
      (StubQuery L q [StubArg.result r] d).1
        = Outcome.panicked "invalid value for stub result") ∧
    (∀ r : Rows,
      (StubExec L q [StubArg.rows r] d).1
        = Outcome.panicked "invalid value for stub result") := by
  refine ⟨fun vs => ?_, fun vs => ?_, fun r => ?_, fun r => ?_⟩
  · have h := stubLoop_outcome StubQuery.entry (getQueryHash L q) vs _
      (ensureQueue_isSome d (getQueryHash L q))
    simp only [StubQuery, h]
    by_cases hall : vs.all (fun v => (StubQuery.entry v).isSome) = true
    · have hall2 := hall
      simp only [List.all_eq_true, StubQuery_entry_isSome_cases] at hall2
      simp only [hall, if_true]
      constructor
      · constructor
        · intro h1; cases h1
        · rintro ⟨v, hv, hn⟩; exact absurd (hall2 v hv) hn
      · exact ⟨fun _ => hall2, fun _ => trivial⟩
    · have hall2 := hall
      simp only [List.all_eq_true, StubQuery_entry_isSome_cases, not_forall] at hall2
      obtain ⟨v, hv, hn⟩ := hall2
      simp only [hall, if_false]
      constructor
      · exact ⟨fun _ => ⟨v, hv, hn⟩, fun _ => rfl⟩
      · constructor
        · intro h1; cases h1
        · intro hall3; exact absurd (hall3 v hv) hn
  · have h := stubLoop_outcome StubExec.entry (getQueryHash L q) vs _
      (ensureQueue_isSome d (getQueryHash L q))
    simp only [StubExec, h]
    by_cases hall : vs.all (fun v => (StubExec.entry v).isSome) = true
    · have hall2 := hall
      simp only [List.all_eq_true, StubExec_entry_isSome_cases] at hall2
      simp only [hall, if_true]
      constructor
      · constructor
        · intro h1; cases h1
        · rintro ⟨v, hv, hn⟩; exact absurd (hall2 v hv) hn
      · exact ⟨fun _ => hall2, fun _ => trivial⟩
    · have hall2 := hall
      simp only [List.all_eq_true, StubExec_entry_isSome_cases, not_forall] at hall2
      obtain ⟨v, hv, hn⟩ := hall2
      simp only [hall, if_false]
      constructor
      · exact ⟨fun _ => ⟨v, hv, hn⟩, fun _ => rfl⟩
      · constructor
        · intro h1; cases h1
        · intro hall3; exact absurd (hall3 v hv) hn
  · have h := stubLoop_outcome StubQuery.entry (getQueryHash L q) [StubArg.result r] _
      (ensureQueue_isSome d (getQueryHash L q))
    simp only [StubQuery, h]
    rfl
  · have h := stubLoop_outcome StubExec.entry (getQueryHash L q) [StubArg.rows r] _
      (ensureQueue_isSome d (getQueryHash L q))
    simp only [StubExec, h]
    rfl

/-! ## One variant per entry -/

/-- C12, as stated, fails for a nil `*Result` pointer: `StubExec` accepts it
(the type switch matches `*Result`) and appends an entry in which none of
`rows`, `result` and `err` is populated. -/
theorem stubExec_nil_result_appends_empty_entry :
    (StubExec sampleLib "UPDATE t" [StubArg.result none] newDriver).1 = Outcome.ret () ∧
    (StubExec sampleLib "UPDATE t" [StubArg.result none] newDriver).2.conn.queries
        (getQueryHash sampleLib "UPDATE t")
      = some { queries := [{ rows := none, result := none, err := none }], pos := 0 } ∧
    query.populated { rows := none, result := none, err := none } = 0 := by
  refine ⟨rfl, rfl, rfl⟩

/-- C12, amended: every entry that `StubQuery` appends for a rows value or an
error, and every entry that `StubExec` appends for a non-nil `*Result` or an
error, has exactly one of `rows`, `result`, `err` populated and the other two
empty; one entry is appended per argument. -/
theorem appended_entry_has_one_variant (L : Lib) (d : testDriver) (q : String) :
    (∀ vs : List QueryVariant, ∃ es : List query,
      (StubQuery L q (vs.map QueryVariant.arg) d).2.conn.queries (getQueryHash L q)
        = some { queries := (queueAt d (getQueryHash L q)).queries ++ es,
                 pos := (queueAt d (getQueryHash L q)).pos } ∧
      es.length = vs.length ∧ ∀ e ∈ es, e.populated = 1) ∧
    (∀ vs : List ResultVariant, ∃ es : List query,
      (StubExec L q (vs.map (fun v => v.variant.arg)) d).2.conn.queries (getQueryHash L q)
        = some { queries := (queueAt d (getQueryHash L q)).queries ++ es,
                 pos := (queueAt d (getQueryHash L q)).pos } ∧
      es.length = vs.length ∧ ∀ e ∈ es, e.populated = 1) := by
  constructor
  · intro vs
    refine ⟨vs.map QueryVariant.stub, ?_, by simp, ?_⟩
    · rw [StubQuery_variants]
      exact setQueue_same _ _ _
    · intro e he
      obtain ⟨v, _, rfl⟩ := List.mem_map.mp he
      cases v <;> rfl
  · intro vs
    refine ⟨(vs.map ResultVariant.variant).map ExecVariant.stub, ?_, by simp, ?_⟩
    · have hargs : vs.map (fun v => v.variant.arg)
          = (vs.map ResultVariant.variant).map ExecVariant.arg := by
        simp [List.map_map, Function.comp_def]
      rw [hargs, StubExec_variants]
      exact setQueue_same _ _ _
    · intro e he
      obtain ⟨w, hw, rfl⟩ := List.mem_map.mp he
      obtain ⟨v, _, rfl⟩ := List.mem_map.mp hw
      cases v <;> rfl

/-! ## Registering nothing -/

/-- C20: for a query text `q` whose key has no queue, `StubQuery(q)` with no
variants returns normally and leaves an empty queue at position 0 under the
key; afterwards `Query(q, args)` (no query override on the receiver) fails
with "Exhausted stubs for query: " followed by `q`, and `Prepare(q)` fails with
the same error and returns no statement. -/
theorem empty_registration_creates_queue (L : Lib) (c : conn) (d : testDriver) (q : String)
    (args : List Value) (h : d.conn.queries (getQueryHash L q) = none) :
    (StubQuery L q [] d).1 = Outcome.ret () ∧
    (StubQuery L q [] d).2.conn.queries (getQueryHash L q)
      = some { queries := [], pos := 0 } ∧
    (c.queryFunc = none →
      conn.Query L c (StubQuery L q [] d).2 q args
        = (Outcome.ret (none, some ("Exhausted stubs for query: " ++ q)),
            (StubQuery L q [] d).2)) ∧
    conn.Prepare L c (StubQuery L q [] d).2 q
      = Outcome.ret (none, some ("Exhausted stubs for query: " ++ q)) := by
  have hst : StubQuery L q [] d
      = (Outcome.ret (), setQueue d (getQueryHash L q) { queries := [], pos := 0 }) := by
    simp [StubQuery, stubLoop, ensureQueue, h]
  rw [hst]
  refine ⟨rfl, setQueue_same _ _ _, fun hf => ?_, ?_⟩
  · simp [conn.Query, hf]
  · simp [conn.Prepare]

/-- Witness for C20: the query text "SELECT 1" on a new driver. -/
theorem empty_registration_creates_queue_witness :
    conn.Query sampleLib newConn (StubQuery sampleLib "SELECT 1" [] newDriver).2 "SELECT 1" []
        = (Outcome.ret (none, some ("Exhausted stubs for query: " ++ "SELECT 1")),
            (StubQuery sampleLib "SELECT 1" [] newDriver).2) ∧
      conn.Prepare sampleLib newConn (StubQuery sampleLib "SELECT 1" [] newDriver).2 "SELECT 1"
        = Outcome.ret (none, some ("Exhausted stubs for query: " ++ "SELECT 1")) :=
  ⟨(empty_registration_creates_queue sampleLib newConn newDriver "SELECT 1" [] rfl).2.2.1 rfl,
   (empty_registration_creates_queue sampleLib newConn newDriver "SELECT 1" [] rfl).2.2.2⟩

/-! ## Rows from delimited text -/

theorem set_length_append (cells rest : List Value) (x c : Value) :
    (cells ++ x :: rest).set cells.length c = cells ++ c :: rest := by
  induction cells with
  | nil => rfl
  | cons a cells ih => simp [List.set, ih]

theorem fill_spec (L : Lib) (d : testDriver) (r : List String) :
    ∀ (cells : List Value) (m : Nat),
      RowsFromCSVString.fill L d r cells.length (cells ++ List.replicate m Value.null)
        = if r.length ≤ m then
            Outcome.ret (cells ++ r.map (RowsFromCSVString.cell L d)
              ++ List.replicate (m - r.length) Value.null)
          else Outcome.panicked "index out of range" := by
  induction r with
  | nil => intro cells m; simp [RowsFromCSVString.fill]
  | cons v rest ih =>
    intro cells m
    cases m with
    | zero => simp [RowsFromCSVString.fill]
    | succ m =>
      have hlt : cells.length < (cells ++ List.replicate (m + 1) Value.null).length := by
        simp
      rw [RowsFromCSVString.fill, if_pos hlt, List.replicate_succ, set_length_append]
      have h := ih (cells ++ [RowsFromCSVString.cell L d v]) m
      simp only [List.length_append, List.length_singleton, List.append_assoc,
        List.singleton_append] at h
      rw [h]
      simp [Nat.succ_le_succ_iff]

theorem fill_fresh_row (L : Lib) (d : testDriver) (columns r : List String) :
    RowsFromCSVString.fill L d r 0 (List.replicate columns.length Value.null)
      = if r.length ≤ columns.length then Outcome.ret (csvRow L d columns r)
        else Outcome.panicked "index out of range" := by
  have h := fill_spec L d r [] columns.length
  simpa [csvRow] using h

theorem loop_spec (L : Lib) (d : testDriver) (columns : List String)
    (rs : List (List String)) :
    ∀ acc : List (List Value),
      RowsFromCSVString.loop L d columns rs acc
        = if rs.all (fun r => decide (r.length ≤ columns.length)) then
            Outcome.ret (acc ++ rs.map (csvRow L d columns))
          else Outcome.panicked "index out of range" := by
  induction rs with
  | nil => intro acc; simp [RowsFromCSVString.loop]
  | cons r rs ih =>
    intro acc
    rw [RowsFromCSVString.loop, fill_fresh_row]
    by_cases hr : r.length ≤ columns.length
    · simp only [hr, if_true, ih, List.all_cons, decide_True, Bool.true_and, List.map_cons,
        List.append_assoc, List.singleton_append]
    · simp [hr]

theorem RowsFromCSVString_spec (L : Lib) (d : testDriver) (columns : List String) (s : String) :
    RowsFromCSVString L d columns s
      = if (L.csvRecords (L.trimSpace s)).all (fun r => decide (r.length ≤ columns.length)) then
          Outcome.ret (RowsFromSlice columns
            ((L.csvRecords (L.trimSpace s)).map (csvRow L d columns)))
        else Outcome.panicked "index out of range" := by
  rw [RowsFromCSVString, loop_spec]
  by_cases h : (L.csvRecords (L.trimSpace s)).all
      (fun r => decide (r.length ≤ columns.length)) = true
  · simp only [h, if_true, List.nil_append]
  · simp only [h]
    rfl

theorem cell_cases (L : Lib) (d : testDriver) (f : String) :
    (d.enableTimeParsing = false →
      RowsFromCSVString.cell L d f = Value.str (L.trimSpace f)) ∧
    (d.enableTimeParsing = true → ∀ t : Time,
      L.timeParse d.timeParsingFormat (L.trimSpace f) = some t →
      RowsFromCSVString.cell L d f = Value.time t) ∧
    (d.enableTimeParsing = true →
      L.timeParse d.timeParsingFormat (L.trimSpace f) = none →
      RowsFromCSVString.cell L d f = Value.str (L.trimSpace f)) := by
  refine ⟨fun h => ?_, fun h t ht => ?_, fun h ht => ?_⟩
  · simp [RowsFromCSVString.cell, h]
  · simp [RowsFromCSVString.cell, h, ht]
  · simp [RowsFromCSVString.cell, h, ht]

theorem csvRow_field (L : Lib) (d : testDriver) (columns r : List String) (j : Nat)
    (f : String) (hf : r[j]? = some f) :
    (csvRow L d columns r)[j]? = some (RowsFromCSVString.cell L d f) := by
  have hj : j < r.length := by
    rcases Nat.lt_or_ge j r.length with h | h
    · exact h
    · rw [List.getElem?_eq_none h] at hf; cases hf
  unfold csvRow
  rw [List.getElem?_append_left (by simpa using hj), List.getElem?_map, hf]
  rfl

theorem csvRow_length (L : Lib) (d : testDriver) (columns r : List String)
    (h : r.length ≤ columns.length) : (csvRow L d columns r).length = columns.length := by
  simp only [csvRow, List.length_append, List.length_map, List.length_replicate]
  omega

/-- C13: for columns and text that `RowsFromCSVString` accepts (no record has
more fields than there are columns) it returns the cursor `RowsFromSlice
columns data` with one row per record, and the cell at field `j` of record `i`
is: with time parsing disabled, the string `trim(f)`; with time parsing
enabled, the timestamp `parse(format, trim(f))` when the parse succeeds and the
string `trim(f)` when it fails. -/
theorem csv_cell_conversion (L : Lib) (d : testDriver) (columns : List String) (s : String)
    (hfit : ∀ r ∈ L.csvRecords (L.trimSpace s), r.length ≤ columns.length) :
    ∃ data : List (List Value),
      RowsFromCSVString L d columns s = Outcome.ret (RowsFromSlice columns data) ∧
      data.length = (L.csvRecords (L.trimSpace s)).length ∧
      ∀ (i j : Nat) (r : List String) (f : String),
        (L.csvRecords (L.trimSpace s))[i]? = some r → r[j]? = some f →
        ∃ row : List Value, data[i]? = some row ∧
          (d.enableTimeParsing = false → row[j]? = some (Value.str (L.trimSpace f))) ∧
          (d.enableTimeParsing = true → ∀ t : Time,
            L.timeParse d.timeParsingFormat (L.trimSpace f) = some t →
            row[j]? = some (Value.time t)) ∧
          (d.enableTimeParsing = true →
            L.timeParse d.timeParsingFormat (L.trimSpace f) = none →
            row[j]? = some (Value.str (L.trimSpace f))) := by
  refine ⟨(L.csvRecords (L.trimSpace s)).map (csvRow L d columns), ?_, by simp, ?_⟩
  · rw [RowsFromCSVString_spec]
    have hall : (L.csvRecords (L.trimSpace s)).all
        (fun r => decide (r.length ≤ columns.length)) = true := by
      simpa [List.all_eq_true] using hfit
    simp only [hall, if_true]
  · intro i j r f hr hf
    refine ⟨csvRow L d columns r, by simp [List.getElem?_map, hr], ?_⟩
    rw [csvRow_field L d columns r j f hf]
    obtain ⟨h1, h2, h3⟩ := cell_cases L d f
    exact ⟨fun h => by rw [h1 h], fun h t ht => by rw [h2 h t ht], fun h ht => by rw [h3 h ht]⟩

/-- Witness for C13: columns `id`, `created_at` and the text
"1, 2023-01-02T15:04:05Z" with time parsing enabled under the RFC 3339 layout
give the row `["1", timestamp 2023-01-02T15:04:05Z]`. -/
theorem csv_cell_conversion_witness :
    (∃ data : List (List Value),
      RowsFromCSVString csvLib (EnableTimeParsing true newDriver) ["id", "created_at"]
          "1, 2023-01-02T15:04:05Z"
        = Outcome.ret (RowsFromSlice ["id", "created_at"] data) ∧ data.length = 1) ∧
    RowsFromCSVString csvLib (EnableTimeParsing true newDriver) ["id", "created_at"]
        "1, 2023-01-02T15:04:05Z"
      = Outcome.ret (RowsFromSlice ["id", "created_at"]
          [[Value.str "1", Value.time { instant := "2023-01-02T15:04:05Z" }]]) := by
  obtain ⟨data, h1, h2, _⟩ := csv_cell_conversion csvLib (EnableTimeParsing true newDriver)
    ["id", "created_at"] "1, 2023-01-02T15:04:05Z" (by decide)
  exact ⟨⟨data, h1, h2⟩, rfl⟩

/-- C17: every cursor that `RowsFromCSVString` returns has the given column
list, is open at position 0, and each of its rows has length exactly
`len(columns)`; and it does return a cursor whenever no record has more fields
than there are columns. -/
theorem csv_rows_have_column_count (L : Lib) (d : testDriver) (columns : List String)
    (s : String) :
    (∀ R : Rows, RowsFromCSVString L d columns s = Outcome.ret R →
      ∃ data : List (List Value),
        R = Rows.own { closed := false, columns := columns, rows := data, pos := 0 } ∧
        ∀ row ∈ data, row.length = columns.length) ∧
    ((∀ r ∈ L.csvRecords (L.trimSpace s), r.length ≤ columns.length) →
      ∃ R : Rows, RowsFromCSVString L d columns s = Outcome.ret R) := by
  constructor
  · intro R hR
    rw [RowsFromCSVString_spec] at hR
    by_cases hall : (L.csvRecords (L.trimSpace s)).all
        (fun r => decide (r.length ≤ columns.length)) = true
    · simp only [hall, if_true, Outcome.ret.injEq] at hR
      refine ⟨(L.csvRecords (L.trimSpace s)).map (csvRow L d columns), hR.symm, ?_⟩
      intro row hrow
      obtain ⟨r, hr, rfl⟩ := List.mem_map.mp hrow
      simp only [List.all_eq_true, decide_eq_true_eq] at hall
      exact csvRow_length L d columns r (hall r hr)
    · simp only [hall] at hR
      cases hR
  · intro hfit
    obtain ⟨data, h, _⟩ := csv_cell_conversion L d columns s hfit
    exact ⟨_, h⟩

/-- Witness for C17: two columns, one record of two fields. -/
theorem csv_rows_have_column_count_witness :
    ∃ data : List (List Value),
      RowsFromSlice ["id", "created_at"]
          [[Value.str "1", Value.time { instant := "2023-01-02T15:04:05Z" }]]
        = Rows.own { closed := false, columns := ["id", "created_at"], rows := data, pos := 0 } ∧
      ∀ row ∈ data, row.length = ["id", "created_at"].length :=
  (csv_rows_have_column_count csvLib (EnableTimeParsing true newDriver) ["id", "created_at"]
    "1, 2023-01-02T15:04:05Z").1 _ rfl

/-- C18: evaluation of `RowsFromCSVString` on one column and the record `1,2`.
The row is allocated with length 1, the second field is assigned at index 1,
and the call panics with an index out of range; the same happens whenever some
record has more fields than there are columns. -/
theorem csv_record_longer_than_columns_panics :
    csvLib.csvRecords (csvLib.trimSpace "1,2") = [["1", "2"]] ∧
    RowsFromCSVString csvLib newDriver ["id"] "1,2" = Outcome.panicked "index out of range" ∧
    ∀ (L : Lib) (d : testDriver) (columns : List String) (s : String),
      (∃ r ∈ L.csvRecords (L.trimSpace s), columns.length < r.length) →
      RowsFromCSVString L d columns s = Outcome.panicked "index out of range" := by
  refine ⟨rfl, rfl, ?_⟩
  intro L d columns s ⟨r, hr, hlen⟩
  rw [RowsFromCSVString_spec]
  have hall : ¬ (L.csvRecords (L.trimSpace s)).all
      (fun r => decide (r.length ≤ columns.length)) = true := by
    simp only [List.all_eq_true, decide_eq_true_eq, not_forall]
    exact ⟨r, hr, by omega⟩
  simp only [hall]
  rfl

/-! ## `Prepare` with a query override -/

/-- C19, as stated, fails when the current entry is a rows result: after
`StubQuery("SELECT 1", rows)` on a new driver the queue is at position 0;
`Exec("SELECT 1")` returns "Exec call not stubbed: SELECT 1" and leaves the
queue at position 1. -/
theorem exec_not_stubbed_consumes_rows_entry :
    ((StubQuery sampleLib "SELECT 1" [StubArg.rows (RowsFromSlice ["id"] [])]
        newDriver).2.conn.queries (getQueryHash sampleLib "SELECT 1")).map (fun q => q.pos)
      = some 0 ∧
    (conn.Exec sampleLib
        (StubQuery sampleLib "SELECT 1" [StubArg.rows (RowsFromSlice ["id"] [])] newDriver).2.conn
        (StubQuery sampleLib "SELECT 1" [StubArg.rows (RowsFromSlice ["id"] [])] newDriver).2
        "SELECT 1" []).1
      = Outcome.ret (none, some "Exec call not stubbed: SELECT 1") ∧
    ((conn.Exec sampleLib
        (StubQuery sampleLib "SELECT 1" [StubArg.rows (RowsFromSlice ["id"] [])] newDriver).2.conn
        (StubQuery sampleLib "SELECT 1" [StubArg.rows (RowsFromSlice ["id"] [])] newDriver).2
        "SELECT 1" []).2.conn.queries (getQueryHash sampleLib "SELECT 1")).map (fun q => q.pos)
      = some 1 := by
  refine ⟨rfl, rfl, rfl⟩

theorem exhausted_ne_not_stubbed (q : String) :
    "Exhausted stubs for query: " ++ q ≠ "Exec call not stubbed: " ++ q := by
  intro h
  have hl := congrArg String.length h
  simp only [String.length_append] at hl
  have h1 : "Exhausted stubs for query: ".length = 27 := by decide
  have h2 : "Exec call not stubbed: ".length = 23 := by decide
  omega

theorem Exec_registry_state (L : Lib) (c : conn) (d : testDriver) (q : String)
    (args : List Value) (qu : queries) (hf : c.execFunc = none)
    (hq : d.conn.queries (getQueryHash L q) = some qu) (hne : qu.pos ≠ qu.queries.length) :
    (conn.Exec L c d q args).2 = setQueue d (getQueryHash L q) qu.advance := by
  simp only [conn.Exec, hf, hq, hne, if_false]
  cases qu.queries[qu.pos]? with
  | none => rfl
  | some e =>
    cases hr : e.result with
    | some r => simp [hr]
    | none =>
      cases he : e.err with
      | some err => simp [hr, he]
      | none => simp [hr, he]

/-- C19, amended: with no exec override on the receiver, if `Exec(q, args)`
returns the error "Exec call not stubbed: " followed by `q`, then either no
queue exists for `q` and the state is unchanged, or a queue exists for `q`
and the call has consumed its current entry: the queue has the same entries
and `pos` increased by exactly one, and nothing outside that queue has
changed. -/
theorem exec_not_stubbed_effect (L : Lib) (c : conn) (d : testDriver) (q : String)
    (args : List Value) (hf : c.execFunc = none)
    (herr : (conn.Exec L c d q args).1
      = Outcome.ret (none, some ("Exec call not stubbed: " ++ q))) :
    (d.conn.queries (getQueryHash L q) = none → (conn.Exec L c d q args).2 = d) ∧
    (∀ qu : queries, d.conn.queries (getQueryHash L q) = some qu →
      (conn.Exec L c d q args).2.conn.queries (getQueryHash L q)
        = some { queries := qu.queries, pos := qu.pos + 1 } ∧
      SameOutside (getQueryHash L q) d (conn.Exec L c d q args).2) := by
  constructor
  · intro hnone
    simp [conn.Exec, hf, hnone]
  · intro qu hq
    have hne : qu.pos ≠ qu.queries.length := by
      intro hpos
      have hex : (conn.Exec L c d q args).1
          = Outcome.ret (none, some ("Exhausted stubs for query: " ++ q)) := by
        simp [conn.Exec, hf, hq, hpos]
      rw [hex] at herr
      simp only [Outcome.ret.injEq, Prod.mk.injEq, Option.some.injEq, true_and] at herr
      exact exhausted_ne_not_stubbed q herr
    rw [Exec_registry_state L c d q args qu hf hq hne]
    exact ⟨setQueue_same _ _ _, sameOutside_setQueue _ _ _⟩

/-- Witness for C19: the rows entry registered by `StubQuery` for "SELECT 1". -/
theorem exec_not_stubbed_effect_witness :
    (conn.Exec sampleLib newConn
        (StubQuery sampleLib "SELECT 1" [StubArg.rows (RowsFromSlice ["id"] [])] newDriver).2
        "SELECT 1" []).2.conn.queries (getQueryHash sampleLib "SELECT 1")
      = some { queries := [{ rows := some (RowsFromSlice ["id"] []), result := none,
                             err := none }],
               pos := 0 + 1 } :=
  ((exec_not_stubbed_effect sampleLib newConn
      (StubQuery sampleLib "SELECT 1" [StubArg.rows (RowsFromSlice ["id"] [])] newDriver).2
      "SELECT 1" [] rfl rfl).2
    { queries := [{ rows := some (RowsFromSlice ["id"] []), result := none, err := none }],
      pos := 0 } rfl).1

/-! ## The registry-backed query closure -/

theorem drop_eq_cons_getElem? {α : Type} (l : List α) (n : Nat) (a : α) (t : List α)
    (h : l.drop n = a :: t) : l[n]? = some a ∧ l.drop (n + 1) = t := by
  have hlt : n < l.length := by
    rcases Nat.lt_or_ge n l.length with hl | hl
    · exact hl
    · rw [List.drop_eq_nil_of_le hl] at h; cases h
  rw [List.drop_eq_getElem_cons hlt] at h
  simp only [List.cons.injEq] at h
  exact ⟨by rw [List.getElem?_eq_getElem hlt, h.1], h.2⟩

theorem queryRegistry_on_rows (hash : String) (args : List Value) (d : testDriver)
    (qu : queries) (R : Rows) (hq : d.conn.queries hash = some qu)
    (he : qu.queries[qu.pos]? = some (storedRows R)) :
    Prepare.queryRegistry hash args d
      = (Outcome.ret (some (handedOut R), none), setQueue d hash qu.advance) := by
  cases R with
  | own r =>
    simp [Prepare.queryRegistry, onQueue, hq, Prepare.queryBody, he, storedRows, handedOut,
      rows.clone]
  | foreign tag =>
    simp [Prepare.queryRegistry, onQueue, hq, Prepare.queryBody, he, storedRows, handedOut]

theorem invokeTimes_queryRegistry (hash : String) (args : Nat → List Value) :
    ∀ (k i0 : Nat) (d : testDriver) (qu : queries) (rs : List Rows),
      d.conn.queries hash = some qu → qu.queries.drop qu.pos = rs.map storedRows →
      k ≤ rs.length →
      invokeTimes (Prepare.queryRegistry hash) args k i0 d
        = ((rs.take k).map (fun R => Outcome.ret (some (handedOut R), none)),
            setQueue d hash { queries := qu.queries, pos := qu.pos + k }) := by
  intro k
  induction k with
  | zero =>
    intro i0 d qu rs hq _ _
    simp [invokeTimes, setQueue_self d hash qu hq]
  | succ k ih =>
    intro i0 d qu rs hq hdrop hk
    cases rs with
    | nil => simp at hk
    | cons R rs =>
      obtain ⟨he, hrest⟩ := drop_eq_cons_getElem? _ _ _ _ hdrop
      have hstep := queryRegistry_on_rows hash (args i0) d qu R hq he
      have hnext := ih (i0 + 1) (setQueue d hash qu.advance) qu.advance rs
        (setQueue_same _ _ _) hrest (by simpa using hk)
      rw [invokeTimes]
      simp only [hstep]
      rw [hnext, setQueue_setQueue]
      simp only [queries.advance, List.take_succ_cons, List.map_cons, Nat.add_assoc,
        Nat.add_comm 1 k]

/-- C15, as stated, fails for a rows result that is not a `*rows` of this
package: after `StubQuery("SELECT 1", R)` with `R` another `driver.Rows`
implementation, the query closure of the prepared statement returns the stored
value `R` itself, which is no cursor of this package reset to position 0. -/
theorem prepared_query_closure_returns_foreign_rows_as_stored :
    ∃ g : List Value → testDriver → Outcome QueryRet × testDriver,
      conn.Prepare sampleLib
          (StubQuery sampleLib "SELECT 1" [StubArg.rows (Rows.foreign 7)] newDriver).2.conn
          (StubQuery sampleLib "SELECT 1" [StubArg.rows (Rows.foreign 7)] newDriver).2
          "SELECT 1"
        = Outcome.ret (some { queryFunc := some g, execFunc := none }, none) ∧
      (g [] (StubQuery sampleLib "SELECT 1" [StubArg.rows (Rows.foreign 7)] newDriver).2).1
        = Outcome.ret (some (Rows.foreign 7), none) ∧
      ∀ r : rows, Rows.foreign 7 ≠ Rows.own r := by
  refine ⟨Prepare.queryRegistry (getQueryHash sampleLib "SELECT 1"), rfl, rfl, ?_⟩
  intro r h
  cases h

/-- C15, amended: with no override on the connection, for a query whose queue
is not exhausted and holds rows results from its current position on,
`Prepare` returns a statement whose query closure is the registry-backed one,
and `k` successive invocations of it (at most as many as there are entries
left) return, in order, for each of the next `k` entries: a clone (position 0,
not closed, same columns and data) when the entry holds a `*rows` of this
package, and the stored value itself when it holds another `driver.Rows`; they
leave the queue with the same entries and `pos` increased by exactly `k`, and
everything else unchanged. -/
theorem prepared_query_closure_returns_clones (L : Lib) (c : conn) (d : testDriver)
    (q : String) (qu : queries) (rs : List Rows)
    (hqf : c.queryFunc = none) (hef : c.execFunc = none)
    (hq : d.conn.queries (getQueryHash L q) = some qu)
    (hrs : qu.queries.drop qu.pos = rs.map storedRows) (hne : rs ≠ []) :
    conn.Prepare L c d q
      = Outcome.ret (some { queryFunc := some (Prepare.queryRegistry (getQueryHash L q)),
                            execFunc := none }, none) ∧
    ∀ (args : Nat → List Value) (k : Nat), k ≤ rs.length →
      (invokeTimes (Prepare.queryRegistry (getQueryHash L q)) args k 0 d).1
        = (rs.take k).map (fun R => Outcome.ret (some (handedOut R), none)) ∧
      (invokeTimes (Prepare.queryRegistry (getQueryHash L q)) args k 0 d).2.conn.queries
          (getQueryHash L q)
        = some { queries := qu.queries, pos := qu.pos + k } ∧
      SameOutside (getQueryHash L q) d
        (invokeTimes (Prepare.queryRegistry (getQueryHash L q)) args k 0 d).2 := by
  constructor
  · cases rs with
    | nil => exact absurd rfl hne
    | cons R rs =>
      obtain ⟨he, _⟩ := drop_eq_cons_getElem? _ _ _ _ hrs
      have hpos : qu.pos ≠ qu.queries.length := by
        intro h
        rw [List.getElem?_eq_none (Nat.le_of_eq h.symm)] at he
        cases he
      simp [conn.Prepare, hq, hpos, Prepare.overrides, Prepare.fillQuery, Prepare.fillExec,
        Prepare.finish, hqf, hef, he, storedRows]
  · intro args k hk
    rw [invokeTimes_queryRegistry (getQueryHash L q) args k 0 d qu rs hq hrs hk]
    exact ⟨rfl, setQueue_same _ _ _, sameOutside_setQueue _ _ _⟩

/-- Witness for C15: a closed `*rows` at position 3 and another `driver.Rows`
registered for "SELECT 1"; two invocations return the clone of the first and
the second as stored. -/
theorem prepared_query_closure_returns_clones_witness :
    (invokeTimes (Prepare.queryRegistry (getQueryHash sampleLib "SELECT 1")) (fun _ => []) 2 0
        (StubQuery sampleLib "SELECT 1"
          [StubArg.rows (Rows.own { closed := true, columns := ["id"], rows := [], pos := 3 }),
           StubArg.rows (Rows.foreign 7)]
          newDriver).2).1
      = [Outcome.ret
          (some (Rows.own { closed := false, columns := ["id"], rows := [], pos := 0 }), none),
         Outcome.ret (some (Rows.foreign 7), none)] :=
  ((prepared_query_closure_returns_clones sampleLib newConn
      (StubQuery sampleLib "SELECT 1"
        [StubArg.rows (Rows.own { closed := true, columns := ["id"], rows := [], pos := 3 }),
         StubArg.rows (Rows.foreign 7)]
        newDriver).2
      "SELECT 1"
      { queries := [storedRows (Rows.own { closed := true, columns := ["id"], rows := [],
                                           pos := 3 }),
                    storedRows (Rows.foreign 7)],
        pos := 0 }
      [Rows.own { closed := true, columns := ["id"], rows := [], pos := 3 }, Rows.foreign 7]
      rfl rfl rfl rfl (by decide)).2 (fun _ => []) 2 (by decide)).1

/-! ## The order of stripping and lowering -/

theorem strip_lower_comm (L : Lib) (hL : ∀ c : Char, isWhitespace (L.toLower c) = isWhitespace c)
    (cs : List Char) :
    (cs.filter (fun c => !isWhitespace c)).map L.toLower
      = (cs.map L.toLower).filter (fun c => !isWhitespace c) := by
  induction cs with
  | nil => rfl
  | cons a cs ih =>
    cases ha : isWhitespace a with
    | true => simp [List.filter_cons, ha, hL, ih]
    | false => simp [List.filter_cons, ha, hL, ih]

theorem char_toLower_whitespace (c : Char) :
    isWhitespace (Char.toLower c) = isWhitespace c := by
  by_cases h : c.toNat ≥ 65 ∧ c.toNat ≤ 90
  · have hlow : Char.toLower c = Char.ofNat (c.toNat + 32) := by
      simp [Char.toLower, h]
    have hc : isWhitespace c = false := by
      simp only [isWhitespace, Bool.or_eq_false_iff, decide_eq_false_iff_not]
      omega
    rw [hlow, hc]
    obtain ⟨h1, h2⟩ := h
    generalize c.toNat = n at h1 h2
    interval_cases n <;> rfl
  · have hlow : Char.toLower c = c := by
      simp only [Char.toLower]
      exact if_neg h
    rw [hlow]

/-- C16: when lowering a character never turns whitespace into non-whitespace
or the reverse (as is the case for `unicode.ToLower` and the characters `\s`
matches), the key `getQueryHash` computes (strip whitespace, then lowercase,
then hash) equals the key the specification describes (lowercase, then strip
whitespace, then hash), for every query text. -/
theorem key_matches_spec_derivation (L : Lib)
    (hL : ∀ c : Char, isWhitespace (L.toLower c) = isWhitespace c) (q : String) :
    getQueryHash L q = specQueryKey L q := by
  simp only [getQueryHash, specQueryKey, stringsToLower, stripWhitespace]
  rw [strip_lower_comm L hL]

/-- Witness for C16: ASCII lowering and the text "SELECT  1". -/
theorem key_matches_spec_derivation_witness :
    getQueryHash sampleLib "SELECT  1" = specQueryKey sampleLib "SELECT  1" :=
  key_matches_spec_derivation sampleLib char_toLower_whitespace "SELECT  1"

end Testdb
